import Mathlib

/-!
Shallow embedding of the ACP streaming reply projector of openclaw
(`src/auto-reply/reply/acp-projector.ts`) together with the tag-visibility
helper of `src/auto-reply/reply/acp-stream-settings.ts`.

JavaScript strings are modelled as Lean `String`s; `.length`, `.slice`,
`.trim`, `.toLowerCase`, `.endsWith` and the `\s` character class are
modelled character-wise (structurally, so that concrete runs evaluate).  The chunker and the block-reply pipeline are
external collaborators of the projector (the spec treats them by contract
only); the observable behaviour of the projector is recorded as a trace of
deliveries: `textAccepted` marks a piece of visible text accepted against
the turn budget and handed to the chunker / live buffer, and `tool` marks a
payload handed to the `deliver` callback with kind "tool".
-/

namespace AcpProjector

/-- JS `s.slice(0, n)` for a natural `n`. -/
def jsSlice (s : String) (n : Nat) : String :=
  String.mk (s.toList.take n)

/-- JS `s.slice(-1)`: the last character as a one-character string. -/
def jsLastCharStr (s : String) : String :=
  match s.toList.getLast? with
  | some c => String.mk [c]
  | none => ""

/-- The JS regex class `\s` on the characters that occur in this code base. -/
def jsIsSpace (c : Char) : Bool :=
  c = ' ' || c = '\t' || c = '\n' || c = '\r' || c = Char.ofNat 11 || c = Char.ofNat 12

/-- JS `c.toLowerCase()` on one character (ASCII case fold; tool
statuses are ASCII). -/
def jsCharToLower (c : Char) : Char :=
  if 'A' ≤ c ∧ c ≤ 'Z' then Char.ofNat (c.toNat + 32) else c

/-- JS `s.toLowerCase()`. -/
def jsToLower (s : String) : String :=
  String.mk (s.toList.map jsCharToLower)

/-- JS `s.trim()`: strip whitespace from both ends. -/
def jsTrim (s : String) : String :=
  String.mk (((s.toList.dropWhile jsIsSpace).reverse.dropWhile jsIsSpace).reverse)

/-- JS `s.trimEnd()`: strip trailing whitespace. -/
def jsTrimEnd (s : String) : String :=
  String.mk ((s.toList.reverse.dropWhile jsIsSpace).reverse)

/-- JS `s.endsWith(suffix)`. -/
def jsEndsWith (s suffix : String) : Bool :=
  suffix.toList.isSuffixOf s.toList

/-- JS `/\s$/.test(s)`: the last character exists and is whitespace. -/
def jsEndsWithSpace (s : String) : Bool :=
  match s.toList.getLast? with
  | some c => jsIsSpace c
  | none => false

/-- JS `/\s/.test(first character of s)`; `false` on the empty string. -/
def jsStartsWithSpace (s : String) : Bool :=
  match s.toList.head? with
  | some c => jsIsSpace c
  | none => false

/-- `const TERMINAL_TOOL_STATUSES = new Set([...])` from acp-projector.ts. -/
def TERMINAL_TOOL_STATUSES : List String :=
  ["completed", "failed", "cancelled", "done", "error"]

/-- `const HIDDEN_BOUNDARY_TAGS = new Set([...])` from acp-projector.ts. -/
def HIDDEN_BOUNDARY_TAGS : List String :=
  ["tool_call", "tool_call_update"]

/-- `TERMINAL_TOOL_STATUSES.has(status)` on a normalized status:
whether the status is terminal. -/
def isTerminalToolStatus (status : Option String) : Bool :=
  match status with
  | some x => TERMINAL_TOOL_STATUSES.contains x
  | none => false

/-- Delivery mode of the projection settings. -/
inductive AcpDeliveryMode
  | live
  | final_only
deriving DecidableEq

/-- Hidden-boundary separator mode of the projection settings. -/
inductive AcpHiddenBoundarySeparator
  | sepNone
  | space
  | newline
  | paragraph
deriving DecidableEq

/-- `AcpProjectionSettings` from acp-stream-settings.ts.  The tag-visibility
override map is modelled as an association list. -/
structure AcpProjectionSettings where
  deliveryMode : AcpDeliveryMode
  hiddenBoundarySeparator : AcpHiddenBoundarySeparator
  repeatSuppression : Bool
  maxTurnChars : Nat
  maxToolSummaryChars : Nat
  maxStatusChars : Nat
  maxMetaEventsPerTurn : Nat
  tagVisibility : List (String × Bool)
deriving DecidableEq

/-- `ACP_TAG_VISIBILITY_DEFAULTS` from acp-stream-settings.ts. -/
def ACP_TAG_VISIBILITY_DEFAULTS : List (String × Bool) :=
  [("agent_message_chunk", true),
   ("tool_call", false),
   ("tool_call_update", false),
   ("usage_update", false),
   ("available_commands_update", false),
   ("current_mode_update", false),
   ("config_option_update", false),
   ("session_info_update", false),
   ("plan", false),
   ("agent_thought_chunk", false)]

/-- `isAcpTagVisible` from acp-stream-settings.ts.  `tag = none` models an
`undefined` tag; the `!tag` check in the source also catches the empty
string. -/
def isAcpTagVisible (settings : AcpProjectionSettings) (tag : Option String) : Bool :=
  match tag with
  | none => true
  | some t =>
    if t = "" then true
    else
      match settings.tagVisibility.lookup t with
      | some b => b
      | none =>
        match ACP_TAG_VISIBILITY_DEFAULTS.lookup t with
        | some b => b
        | none => true

/-- `truncateText` from acp-projector.ts. -/
def truncateText (input : String) (maxChars : Nat) : String :=
  if input.length ≤ maxChars then input
  else if maxChars ≤ 1 then jsSlice input maxChars
  else jsSlice input (maxChars - 1) ++ "…"

/-- `hashText` from acp-projector.ts. -/
def hashText (text : String) : String :=
  jsTrim text

/-- `normalizeToolStatus` from acp-projector.ts. -/
def normalizeToolStatus (status : Option String) : Option String :=
  match status with
  | none => none
  | some s =>
    if s = "" then none
    else
      let normalized := jsToLower (jsTrim s)
      if normalized = "" then none else some normalized

/-- `resolveHiddenBoundarySeparatorText` from acp-projector.ts. -/
def resolveHiddenBoundarySeparatorText (mode : AcpHiddenBoundarySeparator) : String :=
  match mode with
  | .space => " "
  | .newline => "\n"
  | .paragraph => "\n\n"
  | .sepNone => ""

/-- `shouldInsertSeparator` from acp-projector.ts. -/
def shouldInsertSeparator (separator : String) (previousTail : Option String)
    (nextText : String) : Bool :=
  if separator = "" then false
  else if nextText = "" then false
  else if jsStartsWithSpace nextText then false
  else
    let tail := previousTail.getD ""
    if tail = "" then false
    else if separator = " " && jsEndsWithSpace tail then false
    else if (separator = "\n" || separator = "\n\n") && jsEndsWith tail "\n" then false
    else true

/-- Character predicate for the JS regex class `[)"'`]` (closers that may
follow sentence punctuation). -/
def isCloserChar (c : Char) : Bool :=
  c = ')' || c = '"' || c = Char.ofNat 39 || c = Char.ofNat 96

/-- Character predicate for the JS regex class `[.!?]`. -/
def isSentencePunct (c : Char) : Bool :=
  c = '.' || c = '!' || c = '?'

/-- JS `/[.!?][)"'`]*$/.test(s)`: after dropping trailing closers the last
character is sentence punctuation. -/
def endsWithSentencePunct (s : String) : Bool :=
  match (s.toList.reverse.dropWhile isCloserChar).head? with
  | some c => isSentencePunct c
  | none => false

/-- JS `/[.!?][)"'`]*\s$/.test(s)`. -/
def endsWithSentencePunctThenSpace (s : String) : Bool :=
  match s.toList.reverse with
  | [] => false
  | c :: rest =>
    jsIsSpace c &&
      (match (rest.dropWhile isCloserChar).head? with
       | some c' => isSentencePunct c'
       | none => false)

/-- `ACP_LIVE_SOFT_FLUSH_CHARS` from acp-projector.ts. -/
def ACP_LIVE_SOFT_FLUSH_CHARS : Nat := 220

/-- `ACP_LIVE_HARD_FLUSH_CHARS` from acp-projector.ts. -/
def ACP_LIVE_HARD_FLUSH_CHARS : Nat := 480

/-- `ACP_LIVE_IDLE_MIN_CHARS` from acp-projector.ts. -/
def ACP_LIVE_IDLE_MIN_CHARS : Nat := 80

/-- `shouldFlushLiveBufferOnBoundary` from acp-projector.ts. -/
def shouldFlushLiveBufferOnBoundary (text : String) : Bool :=
  if text = "" then false
  else if ACP_LIVE_HARD_FLUSH_CHARS ≤ text.length then true
  else if jsEndsWith text "\n\n" then true
  else if endsWithSentencePunctThenSpace text then true
  else if ACP_LIVE_SOFT_FLUSH_CHARS ≤ text.length && jsEndsWithSpace text then true
  else false

/-- `shouldFlushLiveBufferOnIdle` from acp-projector.ts. -/
def shouldFlushLiveBufferOnIdle (text : String) : Bool :=
  if text = "" then false
  else if ACP_LIVE_IDLE_MIN_CHARS ≤ text.length then true
  else if endsWithSentencePunct (jsTrimEnd text) then true
  else if text.toList.contains '\n' then true
  else false

/-- Tool display record consumed by the summary formatter. -/
structure ToolDisplay where
  name : String
  meta : String
deriving DecidableEq

/-- Modelled from the spec: `resolveToolDisplay` of
`src/agents/tool-display.ts` is not part of the excerpt; the spec only
requires a human-readable summary built from the tool name and detail
string, so the display record is kept as given. -/
def resolveToolDisplay (d : ToolDisplay) : ToolDisplay := d

/-- Modelled from the spec: `formatToolSummary` of
`src/agents/tool-display.ts` is not part of the excerpt; the spec only
requires a bounded human-readable rendering, modelled as
`name ++ ": " ++ meta` (injective in the detail string). -/
def formatToolSummary (d : ToolDisplay) : String :=
  d.name ++ ": " ++ d.meta

/-- Modelled from the spec: `prefixSystemMessage` of
`src/infra/system-message.ts` is not part of the excerpt; statuses are
delivered as "trimmed, formatted text", modelled as a fixed system prefix
prepended to the message. -/
def prefixSystemMessage (text : String) : String :=
  "[system] " ++ text

/-- `renderToolSummaryText` from acp-projector.ts, over the payload fields
of a tool_call event. -/
def renderToolSummaryText (title status fallbackText : Option String) : String :=
  let parts0 : List String :=
    match title with
    | some t => if jsTrim t = "" then [] else [jsTrim t]
    | none => []
  let parts1 : List String :=
    match status with
    | some st => if jsTrim st = "" then parts0 else parts0 ++ ["status=" ++ jsTrim st]
    | none => parts0
  let parts2 : List String :=
    match fallbackText with
    | some f =>
      if parts1 = [] && jsTrim f ≠ "" then [jsTrim f] else parts1
    | none => parts1
  let meta := if parts2 = [] then "tool call" else String.intercalate " · " parts2
  formatToolSummary (resolveToolDisplay { name := "tool_call", meta := meta })

/-- `AcpRuntimeEvent`, restricted to the payload fields the projector
reads.  `stream`/`tag` and the optional tool fields are `Option`s; a
`none` tag models `undefined`. -/
inductive AcpRuntimeEvent
  | text_delta (stream : Option String) (tag : Option String) (text : String)
  | status (tag : Option String) (text : String) (used size : Option Int)
  | tool_call (tag : Option String) (toolCallId title status : Option String)
      (text : Option String)
  | done
  | error
deriving DecidableEq

/-- `AcpProjectedDeliveryMeta` from acp-projector.ts. -/
structure AcpProjectedDeliveryMeta where
  tag : Option String
  toolCallId : Option String
  toolStatus : Option String
  allowEdit : Bool
deriving DecidableEq

/-- `ToolLifecycleState` from acp-projector.ts. -/
structure ToolLifecycleState where
  started : Bool
  terminal : Bool
  lastRenderedHash : Option String
deriving DecidableEq

/-- `BufferedToolDelivery` from acp-projector.ts (payload text plus meta). -/
structure BufferedToolDelivery where
  payloadText : String
  meta : Option AcpProjectedDeliveryMeta
deriving DecidableEq

/-- Observable output of the projector: visible text accepted against the
turn budget (handed to the chunker / live buffer), and payloads handed to
the `deliver` callback with kind "tool". -/
inductive Delivery
  | textAccepted (text : String)
  | tool (text : String) (meta : Option AcpProjectedDeliveryMeta)
deriving DecidableEq

/-- The per-turn mutable state of the projector closure. -/
structure ProjectorState where
  emittedTurnChars : Nat
  emittedMetaEvents : Nat
  truncationNoticeEmitted : Bool
  lastStatusHash : Option String
  lastToolHash : Option String
  lastUsageTuple : Option String
  lastVisibleOutputTail : Option String
  pendingHiddenBoundary : Bool
  liveBufferText : String
  liveIdleTimerArmed : Bool
  pendingToolDeliveries : List BufferedToolDelivery
  toolLifecycleById : List (String × ToolLifecycleState)
deriving DecidableEq

/-- The state of a fresh projector, also the result of `resetTurnState`. -/
def initState : ProjectorState :=
  { emittedTurnChars := 0
    emittedMetaEvents := 0
    truncationNoticeEmitted := false
    lastStatusHash := none
    lastToolHash := none
    lastUsageTuple := none
    lastVisibleOutputTail := none
    pendingHiddenBoundary := false
    liveBufferText := ""
    liveIdleTimerArmed := false
    pendingToolDeliveries := []
    toolLifecycleById := [] }

/-- Creation parameters of the projector that the claims depend on. -/
structure ProjParams where
  settings : AcpProjectionSettings
  shouldSendToolSummaries : Bool
deriving DecidableEq

/-- JS `Map.set` on the association-list model: update in place when the
key exists, append otherwise. -/
def setAssoc (l : List (String × ToolLifecycleState)) (k : String)
    (v : ToolLifecycleState) : List (String × ToolLifecycleState) :=
  if (l.lookup k).isSome then
    l.map (fun p => if p.1 = k then (k, v) else p)
  else
    l ++ [(k, v)]

/-- `flush` from acp-projector.ts: in live mode cancel the idle timer and
force-flush the live buffer (into the external chunker); when forced in
final-only mode, deliver and clear the buffered tool deliveries.  The
chunker drain and downstream pipeline flush are external. -/
def flush (p : ProjParams) (force : Bool) (s : ProjectorState) :
    ProjectorState × List Delivery :=
  let s1 :=
    if p.settings.deliveryMode = .live then
      { s with liveIdleTimerArmed := false, liveBufferText := "" }
    else s
  if p.settings.deliveryMode = .final_only && force then
    ({ s1 with pendingToolDeliveries := [] },
      s1.pendingToolDeliveries.map fun b => .tool b.payloadText b.meta)
  else (s1, [])

/-- `consumeMetaQuota` from acp-projector.ts; returns the boolean result
along with the updated state. -/
def consumeMetaQuota (p : ProjParams) (force : Bool) (s : ProjectorState) :
    Bool × ProjectorState :=
  if force then (true, s)
  else if p.settings.maxMetaEventsPerTurn ≤ s.emittedMetaEvents then (false, s)
  else (true, { s with emittedMetaEvents := s.emittedMetaEvents + 1 })

/-- `emitSystemStatus` from acp-projector.ts.  `dedupe` carries the value
of `opts?.dedupe` (both call sites pass it explicitly). -/
def emitSystemStatus (p : ProjParams) (text : String)
    (meta : Option AcpProjectedDeliveryMeta) (force dedupe : Bool)
    (s : ProjectorState) : ProjectorState × List Delivery :=
  if !p.shouldSendToolSummaries then (s, [])
  else
    let bounded := truncateText (jsTrim text) p.settings.maxStatusChars
    if bounded = "" then (s, [])
    else
      let formatted := prefixSystemMessage bounded
      let hash := hashText formatted
      let shouldDedupe := p.settings.repeatSuppression && dedupe
      if shouldDedupe && s.lastStatusHash = some hash then (s, [])
      else
        match consumeMetaQuota p force s with
        | (false, s1) => (s1, [])
        | (true, s1) =>
          if p.settings.deliveryMode = .final_only then
            ({ s1 with
                pendingToolDeliveries :=
                  s1.pendingToolDeliveries ++ [{ payloadText := formatted, meta := meta }],
                lastStatusHash := some hash }, [])
          else
            let fl := flush p true s1
            ({ fl.1 with lastStatusHash := some hash },
              fl.2 ++ [.tool formatted meta])

/-- The repeat-suppression block of `emitToolSummary`: `none` when the
event is suppressed, otherwise the state with the lifecycle map updated
for the id (unchanged when repeat suppression is off or no id is
present). -/
def toolSuppressionGate (p : ProjParams) (hash : String) (toolCallIdN : Option String)
    (isTerminal isStart : Bool) (s : ProjectorState) : Option ProjectorState :=
  if p.settings.repeatSuppression then
    match toolCallIdN with
    | some id =>
      let st := ((s.toolLifecycleById.lookup id).getD
        { started := false, terminal := false, lastRenderedHash := none })
      if isTerminal && st.terminal then none
      else if isStart && st.started then none
      else if st.lastRenderedHash = some hash then none
      else
        let st1 := { st with
          started := st.started || isStart,
          terminal := st.terminal || isTerminal,
          lastRenderedHash := some hash }
        some { s with toolLifecycleById := setAssoc s.toolLifecycleById id st1 }
    | none =>
      if s.lastToolHash = some hash then none else some s
  else some s

/-- `emitToolSummary` from acp-projector.ts, over the payload fields of a
tool_call event. -/
def emitToolSummary (p : ProjParams) (tag toolCallId title status0 textOpt : Option String)
    (force : Bool) (s : ProjectorState) : ProjectorState × List Delivery :=
  if !p.shouldSendToolSummaries then (s, [])
  else if !isAcpTagVisible p.settings tag then (s, [])
  else
    let toolSummary :=
      truncateText (renderToolSummaryText title status0 textOpt) p.settings.maxToolSummaryChars
    let hash := hashText toolSummary
    let toolCallIdN : Option String :=
      match toolCallId with
      | some i => if jsTrim i = "" then none else some (jsTrim i)
      | none => none
    let status := normalizeToolStatus status0
    let isTerminal := isTerminalToolStatus status
    let isStart := status = some "in_progress" || tag = some "tool_call"
    match toolSuppressionGate p hash toolCallIdN isTerminal isStart s with
    | none => (s, [])
    | some s1 =>
      match consumeMetaQuota p force s1 with
      | (false, s2) => (s2, [])
      | (true, s2) =>
        let metaTag : Option String :=
          match tag with
          | some t => if t = "" then none else some t
          | none => none
        let deliveryMeta : AcpProjectedDeliveryMeta :=
          { tag := metaTag
            toolCallId := toolCallIdN
            toolStatus := status
            allowEdit := toolCallIdN.isSome && tag = some "tool_call_update" }
        if p.settings.deliveryMode = .final_only then
          ({ s2 with
              pendingToolDeliveries :=
                s2.pendingToolDeliveries ++
                  [{ payloadText := toolSummary, meta := some deliveryMeta }],
              lastToolHash := some hash }, [])
        else
          let fl := flush p true s2
          ({ fl.1 with lastToolHash := some hash },
            fl.2 ++ [.tool toolSummary (some deliveryMeta)])

/-- `emitTruncationNotice` from acp-projector.ts. -/
def emitTruncationNotice (p : ProjParams) (s : ProjectorState) :
    ProjectorState × List Delivery :=
  if s.truncationNoticeEmitted then (s, [])
  else
    emitSystemStatus p "output truncated"
      (some { tag := some "session_info_update", toolCallId := none,
              toolStatus := none, allowEdit := false })
      true false
      { s with truncationNoticeEmitted := true }

/-- Delivery meta attached to a status event: `event.tag ? {tag} :
undefined` (the empty string is falsy). -/
def statusMetaOfTag (tag : Option String) : Option AcpProjectedDeliveryMeta :=
  match tag with
  | some t =>
    if t = "" then none
    else some { tag := some t, toolCallId := none, toolStatus := none, allowEdit := false }
  | none => none

/-- The `if (accepted.length > 0)` block of the text_delta branch of
`onEvent`: count the accepted text against the turn budget, remember its
tail, and hand it to the live buffer or the chunker. -/
def acceptVisibleText (p : ProjParams) (accepted : String) (s1 : ProjectorState) :
    ProjectorState × List Delivery :=
  if 0 < accepted.length then
    let s2 := { s1 with
      emittedTurnChars := s1.emittedTurnChars + accepted.length,
      lastVisibleOutputTail := some (jsLastCharStr accepted) }
    if p.settings.deliveryMode = .live then
      let s3 := { s2 with liveBufferText := s2.liveBufferText ++ accepted }
      if shouldFlushLiveBufferOnBoundary s3.liveBufferText then
        ({ s3 with liveIdleTimerArmed := false, liveBufferText := "" },
          [.textAccepted accepted])
      else
        ({ s3 with liveIdleTimerArmed := s3.liveBufferText ≠ "" },
          [.textAccepted accepted])
    else
      (s2, [.textAccepted accepted])
  else (s1, [])

/-- The usage_update dedup block of the status branch of `onEvent`:
`none` when a repeated usage tuple is suppressed, otherwise the state
with the remembered usage tuple updated. -/
def statusUsageGate (p : ProjParams) (tag : Option String) (text : String)
    (used size : Option Int) (s : ProjectorState) : Option ProjectorState :=
  if tag = some "usage_update" && p.settings.repeatSuppression then
    let usageTuple :=
      match used, size with
      | some u, some z => toString u ++ "/" ++ toString z
      | _, _ => hashText text
    if s.lastUsageTuple = some usageTuple then none
    else some { s with lastUsageTuple := some usageTuple }
  else some s

/-- The turn-budget block of the text_delta branch of `onEvent`: emit the
truncation notice when the budget is already exhausted, otherwise accept
the fragment sliced to the remaining budget and emit the notice when it
was cut.  `text` already carries any prepended separator. -/
def textBudgetStep (p : ProjParams) (text : String) (s1 : ProjectorState) :
    ProjectorState × List Delivery :=
  if p.settings.maxTurnChars ≤ s1.emittedTurnChars then
    emitTruncationNotice p s1
  else
    let remaining := p.settings.maxTurnChars - s1.emittedTurnChars
    let accepted := if remaining < text.length then jsSlice text remaining else text
    let step1 := acceptVisibleText p accepted s1
    if accepted.length < text.length then
      let step2 := emitTruncationNotice p step1.1
      (step2.1, step1.2 ++ step2.2)
    else step1

/-- `onEvent` from acp-projector.ts. -/
def onEvent (p : ProjParams) (e : AcpRuntimeEvent) (s : ProjectorState) :
    ProjectorState × List Delivery :=
  match e with
  | .text_delta stream tag text0 =>
    if (match stream with | some str => str != "" && str != "output" | none => false) then (s, [])
    else if !isAcpTagVisible p.settings tag then (s, [])
    else if text0 = "" then (s, [])
    else
      let sep := resolveHiddenBoundarySeparatorText p.settings.hiddenBoundarySeparator
      let text :=
        if s.pendingHiddenBoundary &&
            shouldInsertSeparator sep s.lastVisibleOutputTail text0 then
          sep ++ text0
        else text0
      textBudgetStep p text { s with pendingHiddenBoundary := false }
  | .status tag text used size =>
    if !isAcpTagVisible p.settings tag then (s, [])
    else
      match statusUsageGate p tag text used size s with
      | none => (s, [])
      | some s1 => emitSystemStatus p text (statusMetaOfTag tag) false true s1
  | .tool_call tag toolCallId title status0 textOpt =>
    if !isAcpTagVisible p.settings tag then
      match tag with
      | some t =>
        if HIDDEN_BOUNDARY_TAGS.contains t then
          let status := normalizeToolStatus status0
          let isTerminal := isTerminalToolStatus status
          ({ s with pendingHiddenBoundary := (t = "tool_call") || isTerminal }, [])
        else (s, [])
      | none => (s, [])
    else emitToolSummary p tag toolCallId title status0 textOpt false s
  | .done =>
    let fl := flush p true s
    (initState, fl.2)
  | .error =>
    let fl := flush p true s
    (initState, fl.2)

/-- Processing a list of events in order, concatenating the delivery
traces. -/
def processEvents (p : ProjParams) (evs : List AcpRuntimeEvent) (s : ProjectorState) :
    ProjectorState × List Delivery :=
  match evs with
  | [] => (s, [])
  | e :: rest =>
    let r1 := onEvent p e s
    let r2 := processEvents p rest r1.1
    (r2.1, r1.2 ++ r2.2)

/-- A terminal event ends the turn. -/
def isTerminalEvent (e : AcpRuntimeEvent) : Bool :=
  match e with
  | .done => true
  | .error => true
  | _ => false

/-- Characters of visible text accepted for delivery in a trace. -/
def acceptedChars (ds : List Delivery) : Nat :=
  (ds.map fun d =>
    match d with
    | .textAccepted t => t.length
    | .tool _ _ => 0).sum

/-- Whether a trace entry is a tool-kind delivery. -/
def isToolDelivery (d : Delivery) : Bool :=
  match d with
  | .tool _ _ => true
  | .textAccepted _ => false

/-- Whether a delivery meta carries the session-info tag of the
truncation notice. -/
def isNoticeMeta (m : Option AcpProjectedDeliveryMeta) : Bool :=
  match m with
  | some mm => mm.tag = some "session_info_update"
  | none => false

/-- Whether a trace entry is a session-info-tagged tool delivery. -/
def isNoticeDelivery (d : Delivery) : Bool :=
  match d with
  | .tool _ m => isNoticeMeta m
  | .textAccepted _ => false

/-- Session-info-tagged tool deliveries in a trace. -/
def noticeCount (ds : List Delivery) : Nat :=
  ds.countP isNoticeDelivery

/-- Session-info-tagged entries waiting in the buffered tool
deliveries. -/
def pendNoticeCount (s : ProjectorState) : Nat :=
  s.pendingToolDeliveries.countP fun b => isNoticeDelivery (Delivery.tool b.payloadText b.meta)

/-- Whether processing the event from this state truncates visible text:
the event is a visible output text fragment and the fragment (separator
included) does not fit the remaining budget. -/
def truncStepB (p : ProjParams) (s : ProjectorState) (e : AcpRuntimeEvent) : Bool :=
  match e with
  | .text_delta stream tag text0 =>
    !(match stream with | some str => str != "" && str != "output" | none => false) &&
    isAcpTagVisible p.settings tag &&
    !(text0 = "") &&
    (let sep := resolveHiddenBoundarySeparatorText p.settings.hiddenBoundarySeparator
     let text :=
       if s.pendingHiddenBoundary && shouldInsertSeparator sep s.lastVisibleOutputTail text0
       then sep ++ text0 else text0
     decide (p.settings.maxTurnChars ≤ s.emittedTurnChars) ||
       decide (p.settings.maxTurnChars - s.emittedTurnChars < text.length))
  | _ => false

/-- Whether any step of the event list truncates visible text. -/
def anyTruncStep (p : ProjParams) : ProjectorState → List AcpRuntimeEvent → Bool
  | _, [] => false
  | s, e :: rest => truncStepB p s e || anyTruncStep p (onEvent p e s).1 rest

/-- Whether the lifecycle map records the id as already terminal. -/
def lifecycleTerminal (s : ProjectorState) (id : String) : Bool :=
  match s.toolLifecycleById.lookup id with
  | some st => st.terminal
  | none => false

/-! Concrete fixtures used by witnesses and counterexamples. -/

/-- Sample settings: live delivery, paragraph separator, repeat
suppression on, both tool tags made visible by override. -/
def sampleLiveSettings : AcpProjectionSettings :=
  { deliveryMode := .live
    hiddenBoundarySeparator := .paragraph
    repeatSuppression := true
    maxTurnChars := 100
    maxToolSummaryChars := 320
    maxStatusChars := 320
    maxMetaEventsPerTurn := 64
    tagVisibility := [("tool_call", true), ("tool_call_update", true)] }

/-- Sample projector parameters over `sampleLiveSettings`. -/
def sampleLiveParams : ProjParams :=
  { settings := sampleLiveSettings, shouldSendToolSummaries := true }

/-- Sample settings in final-only mode with a tiny turn budget. -/
def sampleFinalSettings : AcpProjectionSettings :=
  { sampleLiveSettings with deliveryMode := .final_only, maxTurnChars := 5 }

/-- Sample projector parameters over `sampleFinalSettings`. -/
def sampleFinalParams : ProjParams :=
  { settings := sampleFinalSettings, shouldSendToolSummaries := true }

/-- The separator condition as the claim words it: separator non-empty,
fragment non-empty with non-whitespace first character, and the
previously emitted text's last character non-whitespace.  Written from
the spec sentence, for comparison with `shouldInsertSeparator`. -/
def claimedSeparatorCondition (separator : String) (previousTail : Option String)
    (nextText : String) : Bool :=
  separator != "" && nextText != "" && !jsStartsWithSpace nextText &&
    previousTail.getD "" != "" && !jsEndsWithSpace (previousTail.getD "")

/-- Whether the budget step on `text` from state `s` truncates: the turn
budget is already exhausted, or the fragment exceeds what remains of
it. -/
def truncHereB (p : ProjParams) (s : ProjectorState) (text : String) : Bool :=
  decide (p.settings.maxTurnChars ≤ s.emittedTurnChars) ||
    decide (p.settings.maxTurnChars - s.emittedTurnChars < text.length)

/-- Final-only parameters with tool summaries disabled. -/
def noSummaryParams : ProjParams :=
  { settings := sampleFinalSettings, shouldSendToolSummaries := false }

/-- Claim C5: an error event is processed exactly like a done event — the
same delivery trace and the same resulting state — and both leave the
projector in the initial (fully reset) per-turn state. -/
theorem claimC5 :
    ∀ (p : ProjParams) (s : ProjectorState),
      onEvent p .error s = onEvent p .done s ∧ (onEvent p .done s).1 = initState := by
  intro p s
  exact ⟨rfl, rfl⟩

/-- Claim C10: an event with an undefined or empty tag is visible, and a
tag with no per-conversation override that is not one of the documented
default tags is visible. -/
theorem claimC10 :
    (∀ settings : AcpProjectionSettings,
      isAcpTagVisible settings none = true ∧ isAcpTagVisible settings (some "") = true) ∧
    (∀ (settings : AcpProjectionSettings) (t : String),
      settings.tagVisibility.lookup t = none →
      ACP_TAG_VISIBILITY_DEFAULTS.lookup t = none →
      isAcpTagVisible settings (some t) = true) := by
  constructor
  · intro settings
    exact ⟨rfl, by simp [isAcpTagVisible]⟩
  · intro settings t hov hdef
    by_cases ht : t = ""
    · simp [isAcpTagVisible, ht]
    · simp [isAcpTagVisible, ht, hov, hdef]

/-- Witness for claim C10 at a concrete settings value and the concrete
unknown tag "custom_tag". -/
theorem claimC10_witness :
    isAcpTagVisible sampleLiveSettings none = true ∧
    isAcpTagVisible sampleLiveSettings (some "custom_tag") = true := by
  exact ⟨(claimC10.1 sampleLiveSettings).1,
    claimC10.2 sampleLiveSettings "custom_tag" (by decide) (by decide)⟩

/-- Counterexample to claim C4: with separator `"\n\n"`, previous tail
`" "` (whitespace) and next text `"y"`, the code does insert the
separator although the claimed condition (previous tail non-whitespace)
is not met. -/
theorem claimC4_counterexample :
    shouldInsertSeparator "\n\n" (some " ") "y" = true ∧
    claimedSeparatorCondition "\n\n" (some " ") "y" = false := by
  decide

/-- Claim C4, amended: the separator is prepended iff the separator is
non-empty, the fragment is non-empty with a non-whitespace first
character, some previously emitted text exists, and the previous tail
does not already end in whitespace when the separator is `" "`,
respectively does not already end in a newline when the separator is
`"\n"` or `"\n\n"`.  The concrete examples of the claim hold: with
previous tail `"x"` and next text `"y"` the delivered text is prefixed
with `"\n\n"`; with next text `" y"` no separator is inserted. -/
theorem claimC4_amended :
    (∀ (separator : String) (previousTail : Option String) (nextText : String),
      shouldInsertSeparator separator previousTail nextText =
        (separator != "" && nextText != "" && !jsStartsWithSpace nextText &&
          previousTail.getD "" != "" &&
          !(separator == " " && jsEndsWithSpace (previousTail.getD "")) &&
          !((separator == "\n" || separator == "\n\n") &&
            jsEndsWith (previousTail.getD "") "\n"))) ∧
    (onEvent sampleLiveParams (.text_delta none none "y")
        { initState with pendingHiddenBoundary := true,
                         lastVisibleOutputTail := some "x",
                         emittedTurnChars := 1 }).2 = [.textAccepted "\n\ny"] ∧
    (onEvent sampleLiveParams (.text_delta none none " y")
        { initState with pendingHiddenBoundary := true,
                         lastVisibleOutputTail := some "x",
                         emittedTurnChars := 1 }).2 = [.textAccepted " y"] := by
  refine ⟨?_, by decide, by decide⟩
  intro separator previousTail nextText
  simp only [shouldInsertSeparator]
  split_ifs <;> simp_all <;> tauto

/-- Counterexample to claim C8: a visible output text_delta whose text is
empty returns before the pending-boundary flag is cleared, so the flag
stays `true`. -/
theorem claimC8_counterexample :
    (onEvent sampleLiveParams (.text_delta (some "output") none "")
        { initState with pendingHiddenBoundary := true }).1.pendingHiddenBoundary = true ∧
    isAcpTagVisible sampleLiveSettings none = true := by
  decide

/-! Frame lemmas for the stateful helpers, used by the claim proofs. -/

/-- `acceptedChars` distributes over trace concatenation. -/
theorem acceptedChars_append (a b : List Delivery) :
    acceptedChars (a ++ b) = acceptedChars a + acceptedChars b := by
  simp [acceptedChars]

/-- `acceptedChars` of the empty trace. -/
theorem acceptedChars_nil : acceptedChars [] = 0 := rfl

/-- A tool delivery contributes no accepted visible text. -/
theorem acceptedChars_cons_tool (t : String) (m : Option AcpProjectedDeliveryMeta)
    (ds : List Delivery) :
    acceptedChars (Delivery.tool t m :: ds) = acceptedChars ds := by
  simp [acceptedChars]

/-- An accepted-text entry contributes its length. -/
theorem acceptedChars_cons_text (t : String) (ds : List Delivery) :
    acceptedChars (Delivery.textAccepted t :: ds) = t.length + acceptedChars ds := by
  simp [acceptedChars]

/-- A trace consisting only of buffered tool deliveries holds no accepted
visible text. -/
theorem acceptedChars_toolMap (l : List BufferedToolDelivery) :
    acceptedChars (l.map fun b => Delivery.tool b.payloadText b.meta) = 0 := by
  induction l with
  | nil => rfl
  | cons h t ih => simpa [acceptedChars] using ih

/-- `consumeMetaQuota` only ever touches the meta-event counter. -/
theorem consumeMetaQuota_state (p : ProjParams) (force : Bool) (s : ProjectorState) :
    (consumeMetaQuota p force s).2 = s ∨
      (consumeMetaQuota p force s).2 = { s with emittedMetaEvents := s.emittedMetaEvents + 1 } := by
  unfold consumeMetaQuota
  split
  · exact Or.inl rfl
  · split
    · exact Or.inl rfl
    · exact Or.inr rfl

/-- `flush` only ever touches the idle timer, the live buffer and the
buffered tool deliveries, and its trace holds only tool deliveries. -/
theorem flush_spec (p : ProjParams) (force : Bool) (s : ProjectorState) :
    (flush p force s).1.emittedTurnChars = s.emittedTurnChars ∧
    (flush p force s).1.emittedMetaEvents = s.emittedMetaEvents ∧
    (flush p force s).1.truncationNoticeEmitted = s.truncationNoticeEmitted ∧
    (flush p force s).1.lastStatusHash = s.lastStatusHash ∧
    (flush p force s).1.lastToolHash = s.lastToolHash ∧
    (flush p force s).1.lastUsageTuple = s.lastUsageTuple ∧
    (flush p force s).1.lastVisibleOutputTail = s.lastVisibleOutputTail ∧
    (flush p force s).1.pendingHiddenBoundary = s.pendingHiddenBoundary ∧
    (flush p force s).1.toolLifecycleById = s.toolLifecycleById ∧
    acceptedChars (flush p force s).2 = 0 := by
  unfold flush
  split <;> split <;>
    first
    | exact ⟨rfl, rfl, rfl, rfl, rfl, rfl, rfl, rfl, rfl, rfl⟩
    | exact ⟨rfl, rfl, rfl, rfl, rfl, rfl, rfl, rfl, rfl, acceptedChars_toolMap _⟩

/-- State fields of `emitSystemStatus` other than the meta-event counter,
the status hash, the live buffer, the idle timer and the buffered tool
deliveries are unchanged, and its trace holds only tool deliveries. -/
theorem emitSystemStatus_spec (p : ProjParams) (text : String)
    (meta : Option AcpProjectedDeliveryMeta) (force dedupe : Bool) (s : ProjectorState) :
    (emitSystemStatus p text meta force dedupe s).1.emittedTurnChars = s.emittedTurnChars ∧
    (emitSystemStatus p text meta force dedupe s).1.truncationNoticeEmitted
      = s.truncationNoticeEmitted ∧
    (emitSystemStatus p text meta force dedupe s).1.pendingHiddenBoundary
      = s.pendingHiddenBoundary ∧
    (emitSystemStatus p text meta force dedupe s).1.lastVisibleOutputTail
      = s.lastVisibleOutputTail ∧
    (emitSystemStatus p text meta force dedupe s).1.toolLifecycleById = s.toolLifecycleById ∧
    (emitSystemStatus p text meta force dedupe s).1.lastToolHash = s.lastToolHash ∧
    (emitSystemStatus p text meta force dedupe s).1.lastUsageTuple = s.lastUsageTuple ∧
    acceptedChars (emitSystemStatus p text meta force dedupe s).2 = 0 := by
  rcases hmatch : consumeMetaQuota p force s with ⟨ok, s1⟩
  have hq := consumeMetaQuota_state p force s
  rw [hmatch] at hq
  dsimp only at hq
  have e1 : s1.emittedTurnChars = s.emittedTurnChars := by rcases hq with h | h <;> rw [h]
  have e2 : s1.truncationNoticeEmitted = s.truncationNoticeEmitted := by
    rcases hq with h | h <;> rw [h]
  have e3 : s1.pendingHiddenBoundary = s.pendingHiddenBoundary := by
    rcases hq with h | h <;> rw [h]
  have e4 : s1.lastVisibleOutputTail = s.lastVisibleOutputTail := by
    rcases hq with h | h <;> rw [h]
  have e5 : s1.toolLifecycleById = s.toolLifecycleById := by rcases hq with h | h <;> rw [h]
  have e6 : s1.lastToolHash = s.lastToolHash := by rcases hq with h | h <;> rw [h]
  have e7 : s1.lastUsageTuple = s.lastUsageTuple := by rcases hq with h | h <;> rw [h]
  obtain ⟨f1, f2, f3, f4, f5, f6, f7, f8, f9, f10⟩ := flush_spec p true s1
  unfold emitSystemStatus
  rw [hmatch]
  split
  · simp [acceptedChars]
  · try dsimp only
    split
    · simp [acceptedChars]
    · try dsimp only
      split
      · simp [acceptedChars]
      · cases ok
        · try dsimp only
          simp [e1, e2, e3, e4, e5, e6, e7, acceptedChars]
        · try dsimp only
          split
          · simp [e1, e2, e3, e4, e5, e6, e7, acceptedChars]
          · simp [f1, f3, f5, f6, f7, f8, f9, f10, e1, e2, e3, e4, e5, e6, e7,
              acceptedChars_append, acceptedChars_cons_tool, acceptedChars_nil]

/-- `emitTruncationNotice` preserves the same frame as
`emitSystemStatus`, except that it may set the truncation latch. -/
theorem emitTruncationNotice_spec (p : ProjParams) (s : ProjectorState) :
    (emitTruncationNotice p s).1.emittedTurnChars = s.emittedTurnChars ∧
    (emitTruncationNotice p s).1.pendingHiddenBoundary = s.pendingHiddenBoundary ∧
    (emitTruncationNotice p s).1.lastVisibleOutputTail = s.lastVisibleOutputTail ∧
    (emitTruncationNotice p s).1.toolLifecycleById = s.toolLifecycleById ∧
    (emitTruncationNotice p s).1.lastToolHash = s.lastToolHash ∧
    (emitTruncationNotice p s).1.lastUsageTuple = s.lastUsageTuple ∧
    acceptedChars (emitTruncationNotice p s).2 = 0 := by
  unfold emitTruncationNotice
  split
  · simp [acceptedChars]
  · have h := emitSystemStatus_spec p "output truncated"
      (some { tag := some "session_info_update", toolCallId := none,
              toolStatus := none, allowEdit := false })
      true false { s with truncationNoticeEmitted := true }
    exact ⟨h.1, h.2.2.1, h.2.2.2.1, h.2.2.2.2.1, h.2.2.2.2.2.1, h.2.2.2.2.2.2.1,
      h.2.2.2.2.2.2.2⟩

/-- `acceptVisibleText` counts exactly the accepted characters against
the turn budget, records them once in the trace, and leaves all other
counters, hashes, latches and maps unchanged. -/
theorem acceptVisibleText_spec (p : ProjParams) (accepted : String) (s : ProjectorState) :
    (acceptVisibleText p accepted s).1.emittedTurnChars
      = s.emittedTurnChars + accepted.length ∧
    (acceptVisibleText p accepted s).1.emittedMetaEvents = s.emittedMetaEvents ∧
    (acceptVisibleText p accepted s).1.truncationNoticeEmitted = s.truncationNoticeEmitted ∧
    (acceptVisibleText p accepted s).1.pendingHiddenBoundary = s.pendingHiddenBoundary ∧
    (acceptVisibleText p accepted s).1.lastStatusHash = s.lastStatusHash ∧
    (acceptVisibleText p accepted s).1.lastToolHash = s.lastToolHash ∧
    (acceptVisibleText p accepted s).1.lastUsageTuple = s.lastUsageTuple ∧
    (acceptVisibleText p accepted s).1.toolLifecycleById = s.toolLifecycleById ∧
    (acceptVisibleText p accepted s).1.pendingToolDeliveries = s.pendingToolDeliveries ∧
    acceptedChars (acceptVisibleText p accepted s).2 = accepted.length := by
  unfold acceptVisibleText
  split
  · dsimp only
    split
    · split <;> simp [acceptedChars]
    · simp [acceptedChars]
  · rename_i h
    simp only [acceptedChars, List.map_nil, List.sum_nil]
    have hz : accepted.length = 0 := by omega
    simp [hz]

/-- Claim C8, amended: for every text_delta event on the projected output
stream whose tag is visible and whose text is non-empty, processing the
event leaves `pendingHiddenBoundary` equal to `false`; an empty fragment,
by contrast, returns before the flag is cleared. -/
theorem claimC8_amended :
    ∀ (p : ProjParams) (s : ProjectorState) (stream tag : Option String) (text : String),
      (match stream with | some str => str != "" && str != "output" | none => false) = false →
      isAcpTagVisible p.settings tag = true →
      text ≠ "" →
      (onEvent p (.text_delta stream tag text) s).1.pendingHiddenBoundary = false := by
  intro p s stream tag text hstream hvis htext
  have hEflag : ∀ t, (emitTruncationNotice p t).1.pendingHiddenBoundary
      = t.pendingHiddenBoundary := fun t => (emitTruncationNotice_spec p t).2.1
  have hAflag : ∀ a t, (acceptVisibleText p a t).1.pendingHiddenBoundary
      = t.pendingHiddenBoundary := fun a t => (acceptVisibleText_spec p a t).2.2.2.1
  have hBflag : ∀ t u, (textBudgetStep p t u).1.pendingHiddenBoundary
      = u.pendingHiddenBoundary := by
    intro t u
    unfold textBudgetStep
    split
    · rw [hEflag]
    · try dsimp only
      split_ifs <;> simp [hEflag, hAflag]
  simp only [onEvent]
  rw [hstream, hvis]
  simp only [Bool.not_true, Bool.false_eq_true, if_false, htext, ite_false]
  simp [hBflag]

/-- Witness for claim C8 (amended) at concrete inputs. -/
theorem claimC8_amended_witness :
    (onEvent sampleLiveParams (.text_delta (some "output") none "hi")
        { initState with pendingHiddenBoundary := true }).1.pendingHiddenBoundary = false := by
  exact claimC8_amended sampleLiveParams _ (some "output") none "hi" (by decide) (by decide)
    (by decide)

/-- When the suppression gate lets an event through, the state is changed
at most in the tool-lifecycle map. -/
theorem toolSuppressionGate_some (p : ProjParams) (hash : String)
    (toolCallIdN : Option String) (isTerminal isStart : Bool) (s s1 : ProjectorState)
    (h : toolSuppressionGate p hash toolCallIdN isTerminal isStart s = some s1) :
    ∃ lc, s1 = { s with toolLifecycleById := lc } := by
  unfold toolSuppressionGate at h
  split at h
  · cases toolCallIdN with
    | some id =>
      simp only at h
      split_ifs at h
      exact ⟨_, (Option.some.inj h).symm⟩
    | none =>
      simp only at h
      split_ifs at h
      exact ⟨s.toolLifecycleById, (Option.some.inj h).symm⟩
  · exact ⟨s.toolLifecycleById, (Option.some.inj h).symm⟩

/-- State fields of `emitToolSummary` other than the lifecycle map, the
tool hash, the meta-event counter, the live buffer, the idle timer and
the buffered tool deliveries are unchanged, and its trace holds only tool
deliveries. -/
theorem emitToolSummary_spec (p : ProjParams)
    (tag toolCallId title status0 textOpt : Option String) (force : Bool)
    (s : ProjectorState) :
    (emitToolSummary p tag toolCallId title status0 textOpt force s).1.emittedTurnChars
      = s.emittedTurnChars ∧
    (emitToolSummary p tag toolCallId title status0 textOpt force s).1.truncationNoticeEmitted
      = s.truncationNoticeEmitted ∧
    (emitToolSummary p tag toolCallId title status0 textOpt force s).1.pendingHiddenBoundary
      = s.pendingHiddenBoundary ∧
    (emitToolSummary p tag toolCallId title status0 textOpt force s).1.lastVisibleOutputTail
      = s.lastVisibleOutputTail ∧
    (emitToolSummary p tag toolCallId title status0 textOpt force s).1.lastStatusHash
      = s.lastStatusHash ∧
    (emitToolSummary p tag toolCallId title status0 textOpt force s).1.lastUsageTuple
      = s.lastUsageTuple ∧
    acceptedChars (emitToolSummary p tag toolCallId title status0 textOpt force s).2 = 0 := by
  unfold emitToolSummary
  split
  · simp [acceptedChars_nil]
  · split
    · simp [acceptedChars_nil]
    · try dsimp only
      split
      · simp [acceptedChars_nil]
      · rename_i s1 heq
        obtain ⟨lc, rfl⟩ := toolSuppressionGate_some _ _ _ _ _ _ _ heq
        split
        · rename_i s2 heq2
          have hq := consumeMetaQuota_state p force { s with toolLifecycleById := lc }
          rw [heq2] at hq
          dsimp only at hq
          rcases hq with hq | hq <;> subst hq <;> simp [acceptedChars_nil]
        · rename_i s2 heq2
          have hq := consumeMetaQuota_state p force { s with toolLifecycleById := lc }
          rw [heq2] at hq
          dsimp only at hq
          have e1 : s2.emittedTurnChars = s.emittedTurnChars := by
            rcases hq with h | h <;> simp [h]
          have e2 : s2.truncationNoticeEmitted = s.truncationNoticeEmitted := by
            rcases hq with h | h <;> simp [h]
          have e3 : s2.pendingHiddenBoundary = s.pendingHiddenBoundary := by
            rcases hq with h | h <;> simp [h]
          have e4 : s2.lastVisibleOutputTail = s.lastVisibleOutputTail := by
            rcases hq with h | h <;> simp [h]
          have e5 : s2.lastStatusHash = s.lastStatusHash := by
            rcases hq with h | h <;> simp [h]
          have e6 : s2.lastUsageTuple = s.lastUsageTuple := by
            rcases hq with h | h <;> simp [h]
          obtain ⟨f1, f2, f3, f4, f5, f6, f7, f8, f9, f10⟩ := flush_spec p true s2
          split_ifs <;>
            simp [e1, e2, e3, e4, e5, e6, f1, f3, f4, f6, f7, f8, f10,
              acceptedChars_append, acceptedChars_cons_tool, acceptedChars_nil]

/-- Length of a JS slice. -/
theorem jsSlice_length (s : String) (n : Nat) : (jsSlice s n).length = min n s.length := by
  show (List.take n s.data).length = min n s.data.length
  exact List.length_take n s.data

/-- `statusUsageGate` changes at most the remembered usage tuple when it
lets a status event through. -/
theorem statusUsageGate_some (p : ProjParams) (tag : Option String) (text : String)
    (used size : Option Int) (s s1 : ProjectorState)
    (h : statusUsageGate p tag text used size s = some s1) :
    ∃ u, s1 = { s with lastUsageTuple := u } := by
  unfold statusUsageGate at h
  split at h
  · try dsimp only at h
    split_ifs at h
    exact ⟨_, (Option.some.inj h).symm⟩
  · exact ⟨s.lastUsageTuple, (Option.some.inj h).symm⟩

/-- `textBudgetStep` counts exactly its trace against the turn counter. -/
theorem textBudgetStep_turnChars (p : ProjParams) (t : String) (u : ProjectorState) :
    (textBudgetStep p t u).1.emittedTurnChars
      = u.emittedTurnChars + acceptedChars (textBudgetStep p t u).2 := by
  have hT := fun v => (emitTruncationNotice_spec p v).1
  have hTa := fun v => (emitTruncationNotice_spec p v).2.2.2.2.2.2
  have hA := fun a v => (acceptVisibleText_spec p a v).1
  have hAa := fun a v => (acceptVisibleText_spec p a v).2.2.2.2.2.2.2.2.2
  unfold textBudgetStep
  split
  · simp [hT, hTa]
  · try dsimp only
    split <;> split <;>
      simp [hT, hTa, hA, hAa, acceptedChars_append]

/-- `textBudgetStep` keeps the turn counter within the budget. -/
theorem textBudgetStep_turnChars_le (p : ProjParams) (t : String) (u : ProjectorState)
    (h : u.emittedTurnChars ≤ p.settings.maxTurnChars) :
    (textBudgetStep p t u).1.emittedTurnChars ≤ p.settings.maxTurnChars := by
  have hT := fun v => (emitTruncationNotice_spec p v).1
  have hA := fun a v => (acceptVisibleText_spec p a v).1
  unfold textBudgetStep
  split
  · rw [hT]
    exact h
  · rename_i hlt
    try dsimp only
    split
    · rename_i hcut
      split
      · simp only [hT, hA, jsSlice_length]
        omega
      · simp only [hA, jsSlice_length]
        omega
    · rename_i hcut
      split
      · simp only [hT, hA]
        omega
      · simp only [hA]
        omega

/-- When the remaining budget is positive but smaller than the incoming
fragment, `textBudgetStep` accepts exactly the slice that fits and the
budget ends exactly exhausted. -/
theorem textBudgetStep_slices (p : ProjParams) (t : String) (u : ProjectorState)
    (h1 : u.emittedTurnChars < p.settings.maxTurnChars)
    (h2 : p.settings.maxTurnChars - u.emittedTurnChars < t.length) :
    (∃ rest, (textBudgetStep p t u).2 =
        Delivery.textAccepted (jsSlice t (p.settings.maxTurnChars - u.emittedTurnChars))
          :: rest) ∧
    (textBudgetStep p t u).1.emittedTurnChars = p.settings.maxTurnChars := by
  have hT := fun v => (emitTruncationNotice_spec p v).1
  have hA := fun a v => (acceptVisibleText_spec p a v).1
  have hsl : (jsSlice t (p.settings.maxTurnChars - u.emittedTurnChars)).length
      = p.settings.maxTurnChars - u.emittedTurnChars := by
    rw [jsSlice_length]
    omega
  have htr : ∀ a v, 0 < a.length → (acceptVisibleText p a v).2 = [Delivery.textAccepted a] := by
    intro a v ha
    unfold acceptVisibleText
    rw [if_pos ha]
    try dsimp only
    split
    · split <;> rfl
    · rfl
  unfold textBudgetStep
  rw [if_neg (by omega)]
  try dsimp only
  rw [if_pos h2]
  rw [if_pos (by rw [hsl]; omega)]
  constructor
  · refine ⟨(emitTruncationNotice p
      (acceptVisibleText p (jsSlice t (p.settings.maxTurnChars - u.emittedTurnChars)) u).1).2, ?_⟩
    rw [htr _ _ (by rw [hsl]; omega)]
    rfl
  · rw [hT, hA, hsl]
    omega

/-- Per-event step equality for the turn counter: a non-terminal event
increases `emittedTurnChars` by exactly the accepted characters of its
trace. -/
theorem onEvent_turnChars (p : ProjParams) (e : AcpRuntimeEvent) (s : ProjectorState)
    (he : isTerminalEvent e = false) :
    (onEvent p e s).1.emittedTurnChars
      = s.emittedTurnChars + acceptedChars (onEvent p e s).2 := by
  cases e with
  | text_delta stream tag text0 =>
    simp only [onEvent]
    split
    · simp [acceptedChars_nil]
    · split
      · simp [acceptedChars_nil]
      · split
        · simp [acceptedChars_nil]
        · try dsimp only
          rw [textBudgetStep_turnChars]
  | status tag text used size =>
    simp only [onEvent]
    split
    · simp [acceptedChars_nil]
    · split
      · simp [acceptedChars_nil]
      · rename_i s1 heq
        obtain ⟨u, rfl⟩ := statusUsageGate_some _ _ _ _ _ _ _ heq
        have h := emitSystemStatus_spec p text (statusMetaOfTag tag) false true
          { s with lastUsageTuple := u }
        simp [h.1, h.2.2.2.2.2.2.2]
  | tool_call tag toolCallId title status0 textOpt =>
    simp only [onEvent]
    split
    · split
      · split <;> simp [acceptedChars_nil]
      · simp [acceptedChars_nil]
    · have h := emitToolSummary_spec p tag toolCallId title status0 textOpt false s
      simp [h.1, h.2.2.2.2.2.2]
  | done => simp [isTerminalEvent] at he
  | error => simp [isTerminalEvent] at he

/-- Per-event preservation of the turn budget. -/
theorem onEvent_turnChars_le (p : ProjParams) (e : AcpRuntimeEvent) (s : ProjectorState)
    (hle : s.emittedTurnChars ≤ p.settings.maxTurnChars) :
    (onEvent p e s).1.emittedTurnChars ≤ p.settings.maxTurnChars := by
  cases e with
  | text_delta stream tag text0 =>
    simp only [onEvent]
    split
    · exact hle
    · split
      · exact hle
      · split
        · exact hle
        · try dsimp only
          exact textBudgetStep_turnChars_le p _ _ hle
  | status tag text used size =>
    simp only [onEvent]
    split
    · exact hle
    · split
      · exact hle
      · rename_i s1 heq
        obtain ⟨u, rfl⟩ := statusUsageGate_some _ _ _ _ _ _ _ heq
        have h := emitSystemStatus_spec p text (statusMetaOfTag tag) false true
          { s with lastUsageTuple := u }
        rw [h.1]
        exact hle
  | tool_call tag toolCallId title status0 textOpt =>
    simp only [onEvent]
    split
    · split
      · split <;> exact hle
      · exact hle
    · have h := emitToolSummary_spec p tag toolCallId title status0 textOpt false s
      rw [h.1]
      exact hle
  | done => exact Nat.zero_le _
  | error => exact Nat.zero_le _

/-- The turn-character budget holds in every state reachable from a fresh
turn. -/
theorem processEvents_turnChars_le (p : ProjParams) (evs : List AcpRuntimeEvent) :
    ∀ s : ProjectorState, s.emittedTurnChars ≤ p.settings.maxTurnChars →
      (processEvents p evs s).1.emittedTurnChars ≤ p.settings.maxTurnChars := by
  induction evs with
  | nil => intro s h; exact h
  | cons e rest ih =>
    intro s h
    exact ih _ (onEvent_turnChars_le p e s h)

/-- Over a terminal-free event list, the turn counter equals the initial
counter plus the accepted characters of the whole trace. -/
theorem processEvents_turnChars_sum (p : ProjParams) (evs : List AcpRuntimeEvent)
    (hnt : ∀ e ∈ evs, isTerminalEvent e = false) :
    ∀ s : ProjectorState,
      (processEvents p evs s).1.emittedTurnChars
        = s.emittedTurnChars + acceptedChars (processEvents p evs s).2 := by
  induction evs with
  | nil => intro s; simp [processEvents, acceptedChars_nil]
  | cons e rest ih =>
    intro s
    have he : isTerminalEvent e = false := hnt e (by simp)
    have hrest : ∀ e2 ∈ rest, isTerminalEvent e2 = false := fun e2 h2 => hnt e2 (by simp [h2])
    simp only [processEvents]
    rw [acceptedChars_append, ih hrest, onEvent_turnChars p e s he]
    omega

/-- Claim C1: after any sequence of events of one turn, `emittedTurnChars`
never exceeds `maxTurnChars`; the total accepted visible-text characters
of the turn never exceed `maxTurnChars`; and whenever the remaining
budget is positive but smaller than the incoming fragment (separator
included), exactly the slice that fits is accepted and the budget ends
exactly exhausted. -/
theorem claimC1 (p : ProjParams) (evs : List AcpRuntimeEvent)
    (hnt : ∀ e ∈ evs, isTerminalEvent e = false) :
    (processEvents p evs initState).1.emittedTurnChars ≤ p.settings.maxTurnChars ∧
    acceptedChars (processEvents p evs initState).2 ≤ p.settings.maxTurnChars ∧
    (∀ (s : ProjectorState) (stream tag : Option String) (text0 : String),
      (match stream with | some str => str != "" && str != "output" | none => false) = false →
      isAcpTagVisible p.settings tag = true →
      text0 ≠ "" →
      s.emittedTurnChars < p.settings.maxTurnChars →
      ∀ text : String,
        text = (if s.pendingHiddenBoundary && shouldInsertSeparator
              (resolveHiddenBoundarySeparatorText p.settings.hiddenBoundarySeparator)
              s.lastVisibleOutputTail text0 then
            resolveHiddenBoundarySeparatorText p.settings.hiddenBoundarySeparator ++ text0
          else text0) →
        p.settings.maxTurnChars - s.emittedTurnChars < text.length →
        (∃ rest, (onEvent p (.text_delta stream tag text0) s).2 =
            Delivery.textAccepted
              (jsSlice text (p.settings.maxTurnChars - s.emittedTurnChars)) :: rest) ∧
        (onEvent p (.text_delta stream tag text0) s).1.emittedTurnChars
          = p.settings.maxTurnChars) := by
  refine ⟨processEvents_turnChars_le p evs initState (Nat.zero_le _), ?_, ?_⟩
  · have h := processEvents_turnChars_sum p evs hnt initState
    have h2 := processEvents_turnChars_le p evs initState (Nat.zero_le _)
    have h0 : initState.emittedTurnChars = 0 := rfl
    rw [h0] at h
    omega
  · intro s stream tag text0 hstream hvis htext hbudget text htxt hlen
    simp only [onEvent]
    rw [hstream, hvis]
    simp only [Bool.not_true, Bool.false_eq_true, if_false, htext, ite_false]
    rw [← htxt]
    exact textBudgetStep_slices p text { s with pendingHiddenBoundary := false } hbudget hlen

/-- Witness for claim C1: one 11-character fragment against a 5-character
budget. -/
theorem claimC1_witness :
    (processEvents sampleFinalParams [.text_delta none none "hello world"]
        initState).1.emittedTurnChars ≤ sampleFinalParams.settings.maxTurnChars ∧
    acceptedChars (processEvents sampleFinalParams [.text_delta none none "hello world"]
        initState).2 ≤ sampleFinalParams.settings.maxTurnChars ∧
    (onEvent sampleFinalParams (.text_delta none none "hello world")
        initState).1.emittedTurnChars = sampleFinalParams.settings.maxTurnChars := by
  have h := claimC1 sampleFinalParams [.text_delta none none "hello world"] (by decide)
  refine ⟨h.1, h.2.1, ?_⟩
  exact (h.2.2 initState none none "hello world" (by decide) (by decide) (by decide)
    (by decide) "hello world" (by decide) (by decide)).2


/-- `consumeMetaQuota` never pushes the counter past the quota. -/
theorem consumeMetaQuota_meta_le (p : ProjParams) (force : Bool) (s : ProjectorState)
    (h : s.emittedMetaEvents ≤ p.settings.maxMetaEventsPerTurn) :
    (consumeMetaQuota p force s).2.emittedMetaEvents ≤ p.settings.maxMetaEventsPerTurn := by
  unfold consumeMetaQuota
  split_ifs with h1 h2
  · exact h
  · exact h
  · simp only
    omega

/-- `emitSystemStatus` never pushes the counter past the quota. -/
theorem emitSystemStatus_meta_le (p : ProjParams) (text : String)
    (meta : Option AcpProjectedDeliveryMeta) (force dedupe : Bool) (s : ProjectorState)
    (h : s.emittedMetaEvents ≤ p.settings.maxMetaEventsPerTurn) :
    (emitSystemStatus p text meta force dedupe s).1.emittedMetaEvents
      ≤ p.settings.maxMetaEventsPerTurn := by
  unfold emitSystemStatus
  split
  · exact h
  · try dsimp only
    split
    · exact h
    · try dsimp only
      split
      · exact h
      · split
        · rename_i s1 heq
          have hm := consumeMetaQuota_meta_le p force s h
          rw [heq] at hm
          exact hm
        · rename_i s1 heq
          have hm := consumeMetaQuota_meta_le p force s h
          rw [heq] at hm
          dsimp only at hm
          have f2 := (flush_spec p true s1).2.1
          split
          · exact hm
          · simp only [f2]
            exact hm

/-- `emitTruncationNotice` never pushes the counter past the quota. -/
theorem emitTruncationNotice_meta_le (p : ProjParams) (s : ProjectorState)
    (h : s.emittedMetaEvents ≤ p.settings.maxMetaEventsPerTurn) :
    (emitTruncationNotice p s).1.emittedMetaEvents ≤ p.settings.maxMetaEventsPerTurn := by
  unfold emitTruncationNotice
  split
  · exact h
  · exact emitSystemStatus_meta_le p _ _ _ _ _ h

/-- `emitToolSummary` never pushes the counter past the quota. -/
theorem emitToolSummary_meta_le (p : ProjParams)
    (tag toolCallId title status0 textOpt : Option String) (s : ProjectorState)
    (h : s.emittedMetaEvents ≤ p.settings.maxMetaEventsPerTurn) :
    (emitToolSummary p tag toolCallId title status0 textOpt false s).1.emittedMetaEvents
      ≤ p.settings.maxMetaEventsPerTurn := by
  unfold emitToolSummary
  split
  · exact h
  · split
    · exact h
    · try dsimp only
      split
      · exact h
      · rename_i s1 heq
        obtain ⟨lc, rfl⟩ := toolSuppressionGate_some _ _ _ _ _ _ _ heq
        split
        · rename_i s2 heq2
          have hm := consumeMetaQuota_meta_le p false { s with toolLifecycleById := lc } h
          rw [heq2] at hm
          exact hm
        · rename_i s2 heq2
          have hm := consumeMetaQuota_meta_le p false { s with toolLifecycleById := lc } h
          rw [heq2] at hm
          dsimp only at hm
          have f2 := (flush_spec p true s2).2.1
          split
          · exact hm
          · simp only [f2]
            exact hm

/-- `textBudgetStep` never pushes the counter past the quota. -/
theorem textBudgetStep_meta_le (p : ProjParams) (t : String) (u : ProjectorState)
    (h : u.emittedMetaEvents ≤ p.settings.maxMetaEventsPerTurn) :
    (textBudgetStep p t u).1.emittedMetaEvents ≤ p.settings.maxMetaEventsPerTurn := by
  have hA := fun a v => (acceptVisibleText_spec p a v).2.1
  unfold textBudgetStep
  split
  · exact emitTruncationNotice_meta_le p _ h
  · try dsimp only
    split <;> split <;> try dsimp only
    all_goals
      first
      | (apply emitTruncationNotice_meta_le
         rw [hA]
         exact h)
      | (rw [hA]
         exact h)

/-- Per-event preservation of the meta-event quota. -/
theorem onEvent_meta_le (p : ProjParams) (e : AcpRuntimeEvent) (s : ProjectorState)
    (hle : s.emittedMetaEvents ≤ p.settings.maxMetaEventsPerTurn) :
    (onEvent p e s).1.emittedMetaEvents ≤ p.settings.maxMetaEventsPerTurn := by
  cases e with
  | text_delta stream tag text0 =>
    simp only [onEvent]
    split
    · exact hle
    · split
      · exact hle
      · split
        · exact hle
        · try dsimp only
          exact textBudgetStep_meta_le p _ _ hle
  | status tag text used size =>
    simp only [onEvent]
    split
    · exact hle
    · split
      · exact hle
      · rename_i s1 heq
        obtain ⟨u, rfl⟩ := statusUsageGate_some _ _ _ _ _ _ _ heq
        exact emitSystemStatus_meta_le p _ _ _ _ _ hle
  | tool_call tag toolCallId title status0 textOpt =>
    simp only [onEvent]
    split
    · split
      · split <;> exact hle
      · exact hle
    · exact emitToolSummary_meta_le p _ _ _ _ _ _ hle
  | done => exact Nat.zero_le _
  | error => exact Nat.zero_le _

/-- The meta-event quota holds in every state reachable from a fresh
turn. -/
theorem processEvents_meta_le (p : ProjParams) (evs : List AcpRuntimeEvent) :
    ∀ s : ProjectorState, s.emittedMetaEvents ≤ p.settings.maxMetaEventsPerTurn →
      (processEvents p evs s).1.emittedMetaEvents ≤ p.settings.maxMetaEventsPerTurn := by
  induction evs with
  | nil => intro s h; exact h
  | cons e rest ih =>
    intro s h
    exact ih _ (onEvent_meta_le p e s h)

/-- A non-forced status emission from a quota-exhausted state does
nothing at all. -/
theorem emitSystemStatus_quotaDrop (p : ProjParams) (text : String)
    (meta : Option AcpProjectedDeliveryMeta) (dedupe : Bool) (s : ProjectorState)
    (h : p.settings.maxMetaEventsPerTurn ≤ s.emittedMetaEvents) :
    emitSystemStatus p text meta false dedupe s = (s, []) := by
  have hc : consumeMetaQuota p false s = (false, s) := by
    unfold consumeMetaQuota
    rw [if_neg (by simp), if_pos h]
  unfold emitSystemStatus
  rw [hc]
  try dsimp only
  split_ifs <;> rfl

/-- A non-forced tool-summary emission from a quota-exhausted state
delivers nothing and enqueues nothing. -/
theorem emitToolSummary_quotaDrop (p : ProjParams)
    (tag toolCallId title status0 textOpt : Option String) (s : ProjectorState)
    (h : p.settings.maxMetaEventsPerTurn ≤ s.emittedMetaEvents) :
    (emitToolSummary p tag toolCallId title status0 textOpt false s).2 = [] ∧
    (emitToolSummary p tag toolCallId title status0 textOpt false s).1.pendingToolDeliveries
      = s.pendingToolDeliveries := by
  unfold emitToolSummary
  split
  · simp
  · split
    · simp
    · try dsimp only
      split
      · simp
      · rename_i s1 heq
        obtain ⟨lc, rfl⟩ := toolSuppressionGate_some _ _ _ _ _ _ _ heq
        have hc : consumeMetaQuota p false { s with toolLifecycleById := lc }
            = (false, { s with toolLifecycleById := lc }) := by
          unfold consumeMetaQuota
          rw [if_neg (by simp), if_pos (by exact h)]
        rw [hc]
        simp

/-- Claim C7: `emittedMetaEvents` never exceeds `maxMetaEventsPerTurn`
after any event of a turn; a forced quota check consumes nothing, a
non-forced check below the quota consumes exactly one unit, a non-forced
check at the quota fails leaving the state unchanged; and from a
quota-exhausted state any status or visible tool event is dropped
entirely: no delivery appears in the trace and nothing is enqueued. -/
theorem claimC7 (p : ProjParams) :
    (∀ evs : List AcpRuntimeEvent,
      (processEvents p evs initState).1.emittedMetaEvents
        ≤ p.settings.maxMetaEventsPerTurn) ∧
    (∀ s : ProjectorState, consumeMetaQuota p true s = (true, s)) ∧
    (∀ s : ProjectorState, s.emittedMetaEvents < p.settings.maxMetaEventsPerTurn →
      consumeMetaQuota p false s
        = (true, { s with emittedMetaEvents := s.emittedMetaEvents + 1 })) ∧
    (∀ s : ProjectorState, p.settings.maxMetaEventsPerTurn ≤ s.emittedMetaEvents →
      consumeMetaQuota p false s = (false, s)) ∧
    (∀ (s : ProjectorState) (tag : Option String) (text : String) (used size : Option Int),
      p.settings.maxMetaEventsPerTurn ≤ s.emittedMetaEvents →
      (onEvent p (.status tag text used size) s).2 = [] ∧
      (onEvent p (.status tag text used size) s).1.pendingToolDeliveries
        = s.pendingToolDeliveries) ∧
    (∀ (s : ProjectorState) (tag toolCallId title status0 textOpt : Option String),
      p.settings.maxMetaEventsPerTurn ≤ s.emittedMetaEvents →
      (onEvent p (.tool_call tag toolCallId title status0 textOpt) s).2 = [] ∧
      (onEvent p (.tool_call tag toolCallId title status0 textOpt) s).1.pendingToolDeliveries
        = s.pendingToolDeliveries) := by
  refine ⟨fun evs => processEvents_meta_le p evs initState (Nat.zero_le _),
    fun s => rfl, ?_, ?_, ?_, ?_⟩
  · intro s hlt
    unfold consumeMetaQuota
    rw [if_neg (by simp), if_neg (by omega)]
  · intro s hge
    unfold consumeMetaQuota
    rw [if_neg (by simp), if_pos hge]
  · intro s tag text used size hge
    simp only [onEvent]
    split
    · exact ⟨rfl, rfl⟩
    · split
      · exact ⟨rfl, rfl⟩
      · rename_i s1 heq
        obtain ⟨u, rfl⟩ := statusUsageGate_some _ _ _ _ _ _ _ heq
        rw [emitSystemStatus_quotaDrop p _ _ _ _ (by exact hge)]
        exact ⟨rfl, rfl⟩
  · intro s tag toolCallId title status0 textOpt hge
    simp only [onEvent]
    split
    · split
      · split <;> exact ⟨rfl, rfl⟩
      · exact ⟨rfl, rfl⟩
    · exact emitToolSummary_quotaDrop p _ _ _ _ _ _ hge

/-- Witness for claim C7 at concrete inputs: a quota-exhausted state
drops a status event, and the quota holds over a sample turn. -/
theorem claimC7_witness :
    (processEvents sampleLiveParams
        [.status (some "usage_update") "u" (some 1) (some 2), .text_delta none none "hi"]
        initState).1.emittedMetaEvents ≤ sampleLiveParams.settings.maxMetaEventsPerTurn ∧
    consumeMetaQuota sampleLiveParams true initState = (true, initState) ∧
    consumeMetaQuota sampleLiveParams false initState
      = (true, { initState with emittedMetaEvents := 1 }) ∧
    consumeMetaQuota sampleLiveParams false { initState with emittedMetaEvents := 64 }
      = (false, { initState with emittedMetaEvents := 64 }) ∧
    (onEvent sampleLiveParams (.status none "note" none none)
        { initState with emittedMetaEvents := 64 }).2 = [] ∧
    (onEvent sampleLiveParams
        (.tool_call (some "tool_call") (some "T9") (some "x") none none)
        { initState with emittedMetaEvents := 64 }).2 = [] := by
  have h := claimC7 sampleLiveParams
  refine ⟨h.1 _, h.2.1 _, h.2.2.1 _ (by decide), h.2.2.2.1 _ (by decide),
    (h.2.2.2.2.1 _ none "note" none none (by decide)).1,
    (h.2.2.2.2.2 _ (some "tool_call") (some "T9") (some "x") none none (by decide)).1⟩

/-- Unfolding lemma for `List.lookup` on a cons cell. -/
theorem lookup_cons (a x : String) (y : ToolLifecycleState)
    (tl : List (String × ToolLifecycleState)) :
    List.lookup a ((x, y) :: tl) = if a == x then some y else List.lookup a tl := by
  cases hx : a == x <;> simp [List.lookup, hx]

/-- Looking up the written key after a JS `Map.set` yields the written
value. -/
theorem lookup_map_update_self (l : List (String × ToolLifecycleState)) (k : String)
    (v : ToolLifecycleState) (h : (l.lookup k).isSome) :
    (l.map (fun p => if p.1 = k then (k, v) else p)).lookup k = some v := by
  induction l with
  | nil => simp at h
  | cons hd tl ih =>
    rcases hd with ⟨x, y⟩
    rw [List.map_cons]
    dsimp only
    rw [lookup_cons] at h
    by_cases hk : x = k
    · rw [if_pos hk, lookup_cons, if_pos (beq_self_eq_true k)]
    · have hb : (k == x) = false := beq_eq_false_iff_ne.mpr (fun e => hk e.symm)
      rw [hb] at h
      simp only [Bool.false_eq_true, if_false] at h
      rw [if_neg hk, lookup_cons, hb]
      simp only [Bool.false_eq_true, if_false]
      exact ih h

/-- Appending a fresh binding makes it found. -/
theorem lookup_append_single_self (l : List (String × ToolLifecycleState)) (k : String)
    (v : ToolLifecycleState) (h : l.lookup k = none) :
    (l ++ [(k, v)]).lookup k = some v := by
  induction l with
  | nil =>
    show List.lookup k [(k, v)] = some v
    rw [lookup_cons, if_pos (beq_self_eq_true k)]
  | cons hd tl ih =>
    rcases hd with ⟨x, y⟩
    rw [lookup_cons] at h
    rw [List.cons_append, lookup_cons]
    cases hkx : (k == x) with
    | true =>
      rw [if_pos hkx] at h
      simp at h
    | false =>
      rw [hkx] at h
      simp only [Bool.false_eq_true, if_false] at h ⊢
      exact ih h

/-- A JS `Map.set` leaves other keys untouched (update case). -/
theorem lookup_map_update_other (l : List (String × ToolLifecycleState)) (k : String)
    (v : ToolLifecycleState) (k' : String) (h : ¬k' = k) :
    (l.map (fun p => if p.1 = k then (k, v) else p)).lookup k' = l.lookup k' := by
  induction l with
  | nil => rfl
  | cons hd tl ih =>
    rcases hd with ⟨x, y⟩
    rw [List.map_cons]
    dsimp only
    by_cases hk : x = k
    · have hb : (k' == k) = false := beq_eq_false_iff_ne.mpr h
      have hb2 : (k' == x) = false := beq_eq_false_iff_ne.mpr (by rw [hk]; exact h)
      rw [if_pos hk, lookup_cons, lookup_cons, hb, hb2]
      simp only [Bool.false_eq_true, if_false]
      exact ih
    · rw [if_neg hk, lookup_cons, lookup_cons]
      cases hkx : (k' == x) with
      | true => rfl
      | false =>
        simp only [Bool.false_eq_true, if_false]
        exact ih

/-- A JS `Map.set` leaves other keys untouched (append case). -/
theorem lookup_append_single_other (l : List (String × ToolLifecycleState)) (k : String)
    (v : ToolLifecycleState) (k' : String) (h : ¬k' = k) :
    (l ++ [(k, v)]).lookup k' = l.lookup k' := by
  induction l with
  | nil =>
    show List.lookup k' [(k, v)] = List.lookup k' []
    have hb : (k' == k) = false := beq_eq_false_iff_ne.mpr h
    rw [lookup_cons, hb]
    simp only [Bool.false_eq_true, if_false]
  | cons hd tl ih =>
    rcases hd with ⟨x, y⟩
    rw [List.cons_append, lookup_cons, lookup_cons]
    cases hkx : (k' == x) with
    | true => rfl
    | false =>
      simp only [Bool.false_eq_true, if_false]
      exact ih

/-- `setAssoc` writes the given key. -/
theorem lookup_setAssoc_self (l : List (String × ToolLifecycleState)) (k : String)
    (v : ToolLifecycleState) : (setAssoc l k v).lookup k = some v := by
  unfold setAssoc
  split
  · rename_i h
    exact lookup_map_update_self l k v h
  · rename_i h
    exact lookup_append_single_self l k v (Option.not_isSome_iff_eq_none.mp h)

/-- `setAssoc` leaves other keys untouched. -/
theorem lookup_setAssoc_other (l : List (String × ToolLifecycleState)) (k : String)
    (v : ToolLifecycleState) (k' : String) (h : ¬k' = k) :
    (setAssoc l k v).lookup k' = l.lookup k' := by
  unfold setAssoc
  split
  · exact lookup_map_update_other l k v k' h
  · exact lookup_append_single_other l k v k' h

/-- The suppression gate never clears a recorded terminal flag. -/
theorem toolSuppressionGate_terminal_mono (p : ProjParams) (hash : String)
    (toolCallIdN : Option String) (isT isS : Bool) (s s1 : ProjectorState)
    (heq : toolSuppressionGate p hash toolCallIdN isT isS s = some s1) (id : String)
    (h : lifecycleTerminal s id = true) : lifecycleTerminal s1 id = true := by
  unfold toolSuppressionGate at heq
  split at heq
  · cases toolCallIdN with
    | some id' =>
      dsimp only at heq
      split_ifs at heq
      rw [← Option.some.inj heq]
      unfold lifecycleTerminal at h ⊢
      by_cases hid : id = id'
      · subst hid
        dsimp only
        rw [lookup_setAssoc_self]
        rcases hl : s.toolLifecycleById.lookup id with _ | st'
        · rw [hl] at h
          simp at h
        · rw [hl] at h
          dsimp only at h
          simp [hl, h]
      · dsimp only
        rw [lookup_setAssoc_other _ _ _ _ hid]
        exact h
    | none =>
      dsimp only at heq
      split_ifs at heq
      rw [← Option.some.inj heq]
      exact h
  · rw [← Option.some.inj heq]
    exact h

/-- With repeat suppression on and the id already terminal, a further
terminal-status event is suppressed by the gate. -/
theorem toolSuppressionGate_none (p : ProjParams) (hash : String) (id : String)
    (isS : Bool) (s : ProjectorState)
    (hrs : p.settings.repeatSuppression = true)
    (hterm : lifecycleTerminal s id = true) :
    toolSuppressionGate p hash (some id) true isS s = none := by
  unfold toolSuppressionGate
  rw [if_pos hrs]
  dsimp only
  unfold lifecycleTerminal at hterm
  rcases hl : s.toolLifecycleById.lookup id with _ | st'
  · rw [hl] at hterm
    simp at hterm
  · rw [hl] at hterm
    dsimp only at hterm
    simp [hl, hterm]

/-- `emitToolSummary` never clears a recorded terminal flag. -/
theorem emitToolSummary_terminal_mono (p : ProjParams)
    (tag toolCallId title status0 textOpt : Option String) (force : Bool)
    (s : ProjectorState) (id : String) (h : lifecycleTerminal s id = true) :
    lifecycleTerminal (emitToolSummary p tag toolCallId title status0 textOpt force s).1 id
      = true := by
  unfold emitToolSummary
  split
  · exact h
  · split
    · exact h
    · try dsimp only
      split
      · exact h
      · rename_i s1 heq
        have hs1 := toolSuppressionGate_terminal_mono _ _ _ _ _ _ _ heq id h
        split
        · rename_i s2 heq2
          have hq := consumeMetaQuota_state p force s1
          rw [heq2] at hq
          dsimp only at hq
          have hl2 : s2.toolLifecycleById = s1.toolLifecycleById := by
            rcases hq with h2 | h2 <;> simp [h2]
          unfold lifecycleTerminal at hs1 ⊢
          rw [hl2]
          exact hs1
        · rename_i s2 heq2
          have hq := consumeMetaQuota_state p force s1
          rw [heq2] at hq
          dsimp only at hq
          have hl2 : s2.toolLifecycleById = s1.toolLifecycleById := by
            rcases hq with h2 | h2 <;> simp [h2]
          have f9 := (flush_spec p true s2).2.2.2.2.2.2.2.2.1
          split
          · unfold lifecycleTerminal at hs1 ⊢
            dsimp only
            rw [hl2]
            exact hs1
          · unfold lifecycleTerminal at hs1 ⊢
            dsimp only
            rw [f9, hl2]
            exact hs1

/-- `textBudgetStep` never touches the lifecycle map. -/
theorem textBudgetStep_lifecycle (p : ProjParams) (t : String) (u : ProjectorState) :
    (textBudgetStep p t u).1.toolLifecycleById = u.toolLifecycleById := by
  have hE := fun v => (emitTruncationNotice_spec p v).2.2.2.1
  have hA := fun a v => (acceptVisibleText_spec p a v).2.2.2.2.2.2.2.1
  unfold textBudgetStep
  split
  · rw [hE]
  · try dsimp only
    split <;> split <;> try dsimp only
    all_goals simp [hE, hA]

/-- A non-terminal event never clears a recorded terminal flag. -/
theorem onEvent_terminal_mono (p : ProjParams) (e : AcpRuntimeEvent) (s : ProjectorState)
    (id : String) (he : isTerminalEvent e = false) (h : lifecycleTerminal s id = true) :
    lifecycleTerminal (onEvent p e s).1 id = true := by
  cases e with
  | text_delta stream tag text0 =>
    simp only [onEvent]
    split
    · exact h
    · split
      · exact h
      · split
        · exact h
        · try dsimp only
          unfold lifecycleTerminal at h ⊢
          rw [textBudgetStep_lifecycle]
          exact h
  | status tag text used size =>
    simp only [onEvent]
    split
    · exact h
    · split
      · exact h
      · rename_i s1 heq
        obtain ⟨u, rfl⟩ := statusUsageGate_some _ _ _ _ _ _ _ heq
        unfold lifecycleTerminal at h ⊢
        rw [(emitSystemStatus_spec p text (statusMetaOfTag tag) false true
          { s with lastUsageTuple := u }).2.2.2.2.1]
        exact h
  | tool_call tag toolCallId title status0 textOpt =>
    simp only [onEvent]
    split
    · split
      · split <;> exact h
      · exact h
    · exact emitToolSummary_terminal_mono p _ _ _ _ _ _ _ _ h
  | done => simp [isTerminalEvent] at he
  | error => simp [isTerminalEvent] at he

/-- Counterexample to claim C2: with repeat suppression on and both tool
tags visible, a terminal-status event for id "T1" is processed and
delivered; a later non-terminal, non-start update for the same id with a
new rendering is delivered again. -/
theorem claimC2_counterexample :
    isTerminalToolStatus (normalizeToolStatus (some "completed")) = true ∧
    lifecycleTerminal (onEvent sampleLiveParams
      (.tool_call (some "tool_call_update") (some "T1") (some "A") (some "completed") none)
      initState).1 "T1" = true ∧
    (onEvent sampleLiveParams
      (.tool_call (some "tool_call_update") (some "T1") (some "B") none none)
      (onEvent sampleLiveParams
        (.tool_call (some "tool_call_update") (some "T1") (some "A") (some "completed") none)
        initState).1).2.countP isToolDelivery = 1 := by
  decide

/-- Claim C2, amended: with repeat suppression enabled, once the
lifecycle map records an id as terminal, the record persists through
every further non-terminal event of the turn, and every further tool
event carrying that id with a terminal status produces no delivery and
enqueues nothing.  (A further event for the id that is neither
terminal-status nor a duplicate start and renders to a new hash can
still deliver, as the counterexample shows.) -/
theorem claimC2 :
    (∀ (p : ProjParams) (e : AcpRuntimeEvent) (s : ProjectorState) (id : String),
      isTerminalEvent e = false →
      lifecycleTerminal s id = true →
      lifecycleTerminal (onEvent p e s).1 id = true) ∧
    (∀ (p : ProjParams) (s : ProjectorState) (tag : Option String) (rawId : String)
        (title status0 textOpt : Option String),
      p.settings.repeatSuppression = true →
      jsTrim rawId ≠ "" →
      lifecycleTerminal s (jsTrim rawId) = true →
      isTerminalToolStatus (normalizeToolStatus status0) = true →
      (onEvent p (.tool_call tag (some rawId) title status0 textOpt) s).2 = [] ∧
      (onEvent p (.tool_call tag (some rawId) title status0 textOpt)
          s).1.pendingToolDeliveries = s.pendingToolDeliveries) := by
  constructor
  · intro p e s id he h
    exact onEvent_terminal_mono p e s id he h
  · intro p s tag rawId title status0 textOpt hrs htrim hterm hstat
    simp only [onEvent]
    split
    · split
      · split <;> exact ⟨rfl, rfl⟩
      · exact ⟨rfl, rfl⟩
    · unfold emitToolSummary
      dsimp only
      rw [if_neg htrim, hstat,
        toolSuppressionGate_none p _ (jsTrim rawId) _ s hrs hterm]
      split_ifs <;> exact ⟨rfl, rfl⟩

/-- Witness for claim C2 (amended) at concrete inputs: after the
terminal event for "T1", a further completed-status update is fully
suppressed, and a text event keeps the terminal record. -/
theorem claimC2_witness :
    lifecycleTerminal (onEvent sampleLiveParams (.text_delta none none "x")
      (onEvent sampleLiveParams
        (.tool_call (some "tool_call_update") (some "T1") (some "A") (some "completed") none)
        initState).1).1 "T1" = true ∧
    (onEvent sampleLiveParams
      (.tool_call (some "tool_call_update") (some "T1") (some "C") (some "completed") none)
      (onEvent sampleLiveParams
        (.tool_call (some "tool_call_update") (some "T1") (some "A") (some "completed") none)
        initState).1).2 = [] := by
  constructor
  · exact claimC2.1 sampleLiveParams (.text_delta none none "x") _ "T1" (by decide) (by decide)
  · exact (claimC2.2 sampleLiveParams _ (some "tool_call_update") "T1" (some "C")
      (some "completed") none (by decide) (by decide) (by decide) (by decide)).1

/-- Below the quota, a non-forced check consumes exactly one unit. -/
theorem consumeMetaQuota_incr (p : ProjParams) (s : ProjectorState)
    (h : s.emittedMetaEvents < p.settings.maxMetaEventsPerTurn) :
    consumeMetaQuota p false s
      = (true, { s with emittedMetaEvents := s.emittedMetaEvents + 1 }) := by
  unfold consumeMetaQuota
  rw [if_neg (by simp), if_neg (by omega)]

/-- Outside final-only mode, `flush` emits nothing and keeps the buffered
tool deliveries and the lifecycle map. -/
theorem flush_not_final (p : ProjParams) (force : Bool) (s : ProjectorState)
    (h : ¬p.settings.deliveryMode = AcpDeliveryMode.final_only) :
    (flush p force s).2 = [] ∧
    (flush p force s).1.pendingToolDeliveries = s.pendingToolDeliveries ∧
    (flush p force s).1.toolLifecycleById = s.toolLifecycleById := by
  unfold flush
  split <;> rw [if_neg (by simp [h])] <;> exact ⟨rfl, rfl, rfl⟩

/-- A fresh id passes the suppression gate and is recorded with the
event's start/terminal classification and rendered hash. -/
theorem toolSuppressionGate_fresh (p : ProjParams) (hash : String) (id : String)
    (isT isS : Bool) (s : ProjectorState)
    (hrs : p.settings.repeatSuppression = true)
    (hl : s.toolLifecycleById.lookup id = none) :
    toolSuppressionGate p hash (some id) isT isS s
      = some { s with
          toolLifecycleById := setAssoc s.toolLifecycleById id ⟨isS, isT, some hash⟩ } := by
  unfold toolSuppressionGate
  rw [if_pos hrs]
  dsimp only
  rw [hl]
  simp

/-- An id whose recorded rendering hash equals the incoming hash is
suppressed by the gate, whatever the lifecycle stage. -/
theorem toolSuppressionGate_sameHash_none (p : ProjParams) (hash : String) (id : String)
    (isT isS : Bool) (s : ProjectorState) (st : ToolLifecycleState)
    (hrs : p.settings.repeatSuppression = true)
    (hl : s.toolLifecycleById.lookup id = some st)
    (hh : st.lastRenderedHash = some hash) :
    toolSuppressionGate p hash (some id) isT isS s = none := by
  unfold toolSuppressionGate
  rw [if_pos hrs]
  dsimp only
  rw [hl]
  simp only [Option.getD_some]
  split_ifs with g1 g2 <;> rfl

/-- A visible tool event is handled by `emitToolSummary`. -/
theorem onEvent_tool_visible (p : ProjParams) (tag toolCallId title status0 textOpt :
    Option String) (s : ProjectorState)
    (hvis : isAcpTagVisible p.settings tag = true) :
    onEvent p (.tool_call tag toolCallId title status0 textOpt) s
      = emitToolSummary p tag toolCallId title status0 textOpt false s := by
  simp only [onEvent]
  rw [hvis]
  simp

/-- First delivery of a fresh tool-call id: exactly one payload is
delivered or enqueued, and the lifecycle map records the rendering. -/
theorem emitToolSummary_fresh (p : ProjParams)
    (tag : Option String) (rawId : String) (title status0 textOpt : Option String)
    (s : ProjectorState)
    (hsend : p.shouldSendToolSummaries = true)
    (hvis : isAcpTagVisible p.settings tag = true)
    (hrs : p.settings.repeatSuppression = true)
    (htrim : jsTrim rawId ≠ "")
    (hl : s.toolLifecycleById.lookup (jsTrim rawId) = none)
    (hq : s.emittedMetaEvents < p.settings.maxMetaEventsPerTurn) :
    (emitToolSummary p tag (some rawId) title status0 textOpt false s).2.countP isToolDelivery
        + (emitToolSummary p tag (some rawId) title status0 textOpt
            false s).1.pendingToolDeliveries.length
      = s.pendingToolDeliveries.length + 1 ∧
    (emitToolSummary p tag (some rawId) title status0 textOpt false s).1.toolLifecycleById
      = setAssoc s.toolLifecycleById (jsTrim rawId)
          ⟨(decide (normalizeToolStatus status0 = some "in_progress")
              || decide (tag = some "tool_call")),
            isTerminalToolStatus (normalizeToolStatus status0),
            some (hashText (truncateText (renderToolSummaryText title status0 textOpt)
              p.settings.maxToolSummaryChars))⟩ := by
  unfold emitToolSummary
  rw [hsend, hvis]
  simp only [Bool.not_true, Bool.false_eq_true, if_false]
  try dsimp only
  rw [if_neg htrim, toolSuppressionGate_fresh p _ _ _ _ s hrs hl]
  try dsimp only
  rw [consumeMetaQuota_incr p _ (by exact hq)]
  try dsimp only
  split
  · constructor
    · simp
    · rfl
  · rename_i hmode
    have g1 := fun t => (flush_not_final p true t hmode).1
    have g2 := fun t => (flush_not_final p true t hmode).2.1
    have g3 := fun t => (flush_not_final p true t hmode).2.2
    constructor
    · simp [g1, g2, List.countP_append, List.countP_cons, isToolDelivery]
      omega
    · simp only [g3]

/-- A repeat of an already-recorded rendering is fully suppressed. -/
theorem emitToolSummary_sameHash (p : ProjParams)
    (tag : Option String) (rawId : String) (title status0 textOpt : Option String)
    (s : ProjectorState) (st : ToolLifecycleState)
    (hrs : p.settings.repeatSuppression = true)
    (htrim : jsTrim rawId ≠ "")
    (hl : s.toolLifecycleById.lookup (jsTrim rawId) = some st)
    (hh : st.lastRenderedHash = some (hashText (truncateText
      (renderToolSummaryText title status0 textOpt) p.settings.maxToolSummaryChars))) :
    emitToolSummary p tag (some rawId) title status0 textOpt false s = (s, []) := by
  unfold emitToolSummary
  dsimp only
  rw [if_neg htrim, toolSuppressionGate_sameHash_none p _ _ _ _ s st hrs hl hh]
  split_ifs <;> rfl

/-- Claim C6: with repeat suppression on, a visible tool-call event with
a fresh id produces exactly one delivery (delivered directly in live
mode, enqueued in final-only mode), and processing the identical event
again straight after produces nothing and leaves the state untouched. -/
theorem claimC6 (p : ProjParams) (tag : Option String) (rawId : String)
    (title status0 textOpt : Option String) (s : ProjectorState)
    (hsend : p.shouldSendToolSummaries = true)
    (hvis : isAcpTagVisible p.settings tag = true)
    (hrs : p.settings.repeatSuppression = true)
    (htrim : jsTrim rawId ≠ "")
    (hnonterm : isTerminalToolStatus (normalizeToolStatus status0) = false)
    (hl : s.toolLifecycleById.lookup (jsTrim rawId) = none)
    (hq : s.emittedMetaEvents < p.settings.maxMetaEventsPerTurn) :
    ((onEvent p (.tool_call tag (some rawId) title status0 textOpt) s).2.countP isToolDelivery
        + (onEvent p (.tool_call tag (some rawId) title status0 textOpt)
            s).1.pendingToolDeliveries.length
      = s.pendingToolDeliveries.length + 1) ∧
    onEvent p (.tool_call tag (some rawId) title status0 textOpt)
        (onEvent p (.tool_call tag (some rawId) title status0 textOpt) s).1
      = ((onEvent p (.tool_call tag (some rawId) title status0 textOpt) s).1, []) := by
  rw [onEvent_tool_visible p _ _ _ _ _ _ hvis]
  obtain ⟨h1, h2⟩ := emitToolSummary_fresh p tag rawId title status0 textOpt s
    hsend hvis hrs htrim hl hq
  refine ⟨h1, ?_⟩
  rw [onEvent_tool_visible p _ _ _ _ _ _ hvis]
  exact emitToolSummary_sameHash p tag rawId title status0 textOpt _ _ hrs htrim
    (by rw [h2, lookup_setAssoc_self]) rfl

/-- Witness for claim C6 at concrete inputs. -/
theorem claimC6_witness :
    ((onEvent sampleLiveParams
        (.tool_call (some "tool_call") (some "T1") (some "run") (some "in_progress") none)
        initState).2.countP isToolDelivery
      + (onEvent sampleLiveParams
        (.tool_call (some "tool_call") (some "T1") (some "run") (some "in_progress") none)
        initState).1.pendingToolDeliveries.length = 1) ∧
    onEvent sampleLiveParams
        (.tool_call (some "tool_call") (some "T1") (some "run") (some "in_progress") none)
        (onEvent sampleLiveParams
          (.tool_call (some "tool_call") (some "T1") (some "run") (some "in_progress") none)
          initState).1
      = ((onEvent sampleLiveParams
          (.tool_call (some "tool_call") (some "T1") (some "run") (some "in_progress") none)
          initState).1, []) := by
  have h := claimC6 sampleLiveParams (some "tool_call") "T1" (some "run")
    (some "in_progress") none initState (by decide) (by decide) (by decide) (by decide)
    (by decide) (by decide) (by decide)
  exact h

/-- With tool summaries disabled, a status emission does nothing. -/
theorem emitSystemStatus_noSend (p : ProjParams) (text : String)
    (meta : Option AcpProjectedDeliveryMeta) (force dedupe : Bool) (s : ProjectorState)
    (hsend : p.shouldSendToolSummaries = false) :
    emitSystemStatus p text meta force dedupe s = (s, []) := by
  unfold emitSystemStatus
  rw [if_pos (by simp [hsend])]

/-- With tool summaries disabled, a tool-summary emission does nothing. -/
theorem emitToolSummary_noSend (p : ProjParams)
    (tag toolCallId title status0 textOpt : Option String) (force : Bool)
    (s : ProjectorState) (hsend : p.shouldSendToolSummaries = false) :
    emitToolSummary p tag toolCallId title status0 textOpt force s = (s, []) := by
  unfold emitToolSummary
  rw [if_pos (by simp [hsend])]

/-- With tool summaries disabled, the truncation notice delivers nothing
and enqueues nothing (though the latch may still be set). -/
theorem emitTruncationNotice_noSend (p : ProjParams) (s : ProjectorState)
    (hsend : p.shouldSendToolSummaries = false) :
    (emitTruncationNotice p s).2 = [] ∧
    (emitTruncationNotice p s).1.pendingToolDeliveries = s.pendingToolDeliveries := by
  unfold emitTruncationNotice
  split
  · exact ⟨rfl, rfl⟩
  · rw [emitSystemStatus_noSend p _ _ _ _ _ hsend]
    exact ⟨rfl, rfl⟩

/-- The truncation notice always leaves the latch set. -/
theorem emitTruncationNotice_latch (p : ProjParams) (s : ProjectorState) :
    (emitTruncationNotice p s).1.truncationNoticeEmitted = true := by
  unfold emitTruncationNotice
  split
  · rename_i h
    exact h
  · rw [(emitSystemStatus_spec p "output truncated"
      (some { tag := some "session_info_update", toolCallId := none, toolStatus := none,
              allowEdit := false }) true false
      { s with truncationNoticeEmitted := true }).2.1]

/-- Whenever the budget check truncates (budget already exhausted, or
the fragment longer than the remaining budget), the latch ends set. -/
theorem textBudgetStep_latch (p : ProjParams) (t : String) (u : ProjectorState)
    (h : p.settings.maxTurnChars ≤ u.emittedTurnChars ∨
      p.settings.maxTurnChars - u.emittedTurnChars < t.length) :
    (textBudgetStep p t u).1.truncationNoticeEmitted = true := by
  unfold textBudgetStep
  split
  · exact emitTruncationNotice_latch p _
  · rename_i hlt
    try dsimp only
    rcases h with h | h
    · omega
    · rw [if_pos h]
      rw [if_pos (by rw [jsSlice_length]; omega)]
      exact emitTruncationNotice_latch p _

/-- The accepted-text step never emits a tool delivery. -/
theorem acceptVisibleText_toolfree (p : ProjParams) (a : String) (v : ProjectorState) :
    (acceptVisibleText p a v).2.countP isToolDelivery = 0 := by
  unfold acceptVisibleText
  split
  · try dsimp only
    split
    · split <;> simp [isToolDelivery]
    · simp [isToolDelivery]
  · rfl

/-- With tool summaries disabled, the budget step emits no tool delivery
and enqueues nothing. -/
theorem textBudgetStep_noSend (p : ProjParams) (t : String) (u : ProjectorState)
    (hsend : p.shouldSendToolSummaries = false) :
    (textBudgetStep p t u).2.countP isToolDelivery = 0 ∧
    (textBudgetStep p t u).1.pendingToolDeliveries = u.pendingToolDeliveries := by
  have hE1 := fun v => (emitTruncationNotice_noSend p v hsend).1
  have hE2 := fun v => (emitTruncationNotice_noSend p v hsend).2
  have hA9 := fun a v => (acceptVisibleText_spec p a v).2.2.2.2.2.2.2.2.1
  unfold textBudgetStep
  split
  · exact ⟨by rw [hE1]; rfl, hE2 _⟩
  · try dsimp only
    split
    · split
      · exact ⟨by simp [List.countP_append, acceptVisibleText_toolfree, hE1], by
          rw [hE2, hA9]⟩
      · exact ⟨acceptVisibleText_toolfree p _ _, hA9 _ _⟩
    · split
      · exact ⟨by simp [List.countP_append, acceptVisibleText_toolfree, hE1], by
          rw [hE2, hA9]⟩
      · exact ⟨acceptVisibleText_toolfree p _ _, hA9 _ _⟩

/-- With an empty buffer, `flush` emits nothing. -/
theorem flush_trace_of_empty (p : ProjParams) (force : Bool) (s : ProjectorState)
    (hpend : s.pendingToolDeliveries = []) : (flush p force s).2 = [] := by
  unfold flush
  split <;> split <;> simp [hpend]

/-- With tool summaries disabled and an empty buffer, one event emits no
tool delivery and keeps the buffer empty. -/
theorem onEvent_noSend (p : ProjParams) (e : AcpRuntimeEvent) (s : ProjectorState)
    (hsend : p.shouldSendToolSummaries = false)
    (hpend : s.pendingToolDeliveries = []) :
    (onEvent p e s).2.countP isToolDelivery = 0 ∧
    (onEvent p e s).1.pendingToolDeliveries = [] := by
  cases e with
  | text_delta stream tag text0 =>
    simp only [onEvent]
    split
    · exact ⟨rfl, hpend⟩
    · split
      · exact ⟨rfl, hpend⟩
      · split
        · exact ⟨rfl, hpend⟩
        · try dsimp only
          obtain ⟨h1, h2⟩ := textBudgetStep_noSend p _ { s with pendingHiddenBoundary := false }
            hsend
          exact ⟨h1, by rw [h2]; exact hpend⟩
  | status tag text used size =>
    simp only [onEvent]
    split
    · exact ⟨rfl, hpend⟩
    · split
      · exact ⟨rfl, hpend⟩
      · rename_i s1 heq
        obtain ⟨u, rfl⟩ := statusUsageGate_some _ _ _ _ _ _ _ heq
        rw [emitSystemStatus_noSend p _ _ _ _ _ hsend]
        exact ⟨rfl, hpend⟩
  | tool_call tag toolCallId title status0 textOpt =>
    simp only [onEvent]
    split
    · split
      · split <;> exact ⟨rfl, hpend⟩
      · exact ⟨rfl, hpend⟩
    · rw [emitToolSummary_noSend p _ _ _ _ _ _ _ hsend]
      exact ⟨rfl, hpend⟩
  | done =>
    refine ⟨?_, rfl⟩
    show ((flush p true s).2).countP isToolDelivery = 0
    rw [flush_trace_of_empty p true s hpend]
    rfl
  | error =>
    refine ⟨?_, rfl⟩
    show ((flush p true s).2).countP isToolDelivery = 0
    rw [flush_trace_of_empty p true s hpend]
    rfl

/-- Claim C9: with `shouldSendToolSummaries = false`, no tool-kind
delivery is ever made and nothing is ever enqueued — status emissions,
tool summaries and even the forced truncation notice all do nothing —
while the truncation latch is still set whenever truncation occurs. -/
theorem claimC9 (p : ProjParams) (hsend : p.shouldSendToolSummaries = false) :
    (∀ evs : List AcpRuntimeEvent,
      (processEvents p evs initState).2.countP isToolDelivery = 0 ∧
      (processEvents p evs initState).1.pendingToolDeliveries = []) ∧
    (∀ (text : String) (meta : Option AcpProjectedDeliveryMeta) (force dedupe : Bool)
        (s : ProjectorState), emitSystemStatus p text meta force dedupe s = (s, [])) ∧
    (∀ (tag toolCallId title status0 textOpt : Option String) (force : Bool)
        (s : ProjectorState),
      emitToolSummary p tag toolCallId title status0 textOpt force s = (s, [])) ∧
    (∀ s : ProjectorState, (emitTruncationNotice p s).2 = []) ∧
    (∀ (t : String) (u : ProjectorState),
      p.settings.maxTurnChars ≤ u.emittedTurnChars ∨
        p.settings.maxTurnChars - u.emittedTurnChars < t.length →
      (textBudgetStep p t u).1.truncationNoticeEmitted = true) := by
  refine ⟨?_, fun text meta force dedupe s => emitSystemStatus_noSend p text meta force dedupe
      s hsend,
    fun tag toolCallId title status0 textOpt force s =>
      emitToolSummary_noSend p tag toolCallId title status0 textOpt force s hsend,
    fun s => (emitTruncationNotice_noSend p s hsend).1,
    fun t u h => textBudgetStep_latch p t u h⟩
  intro evs
  have main : ∀ (l : List AcpRuntimeEvent) (s : ProjectorState),
      s.pendingToolDeliveries = [] →
      (processEvents p l s).2.countP isToolDelivery = 0 ∧
      (processEvents p l s).1.pendingToolDeliveries = [] := by
    intro l
    induction l with
    | nil => intro s h; exact ⟨rfl, h⟩
    | cons e rest ih =>
      intro s h
      obtain ⟨h1, h2⟩ := onEvent_noSend p e s hsend h
      obtain ⟨h3, h4⟩ := ih (onEvent p e s).1 h2
      refine ⟨?_, h4⟩
      simp only [processEvents, List.countP_append, h1, h3]
  exact main evs initState rfl

/-- Witness for claim C9 at concrete inputs: a truncating turn with
summaries disabled delivers only text, enqueues nothing, and still sets
the latch. -/
theorem claimC9_witness :
    ((processEvents
        { settings := sampleFinalSettings, shouldSendToolSummaries := false }
        [.text_delta none none "hello world",
         .tool_call (some "tool_call") (some "T1") (some "x") none none,
         .status none "note" none none, .done]
        initState).2.countP isToolDelivery = 0) ∧
    (textBudgetStep { settings := sampleFinalSettings, shouldSendToolSummaries := false }
      "hello world" initState).1.truncationNoticeEmitted = true := by
  have h := claimC9 { settings := sampleFinalSettings, shouldSendToolSummaries := false } rfl
  exact ⟨(h.1 _).1, h.2.2.2.2 "hello world" initState (by decide)⟩

/-- A nonempty input never truncates to the empty string. -/
theorem truncateText_ne_empty (input : String) (maxChars : Nat)
    (hi : input ≠ "") (hmax : 1 ≤ maxChars) : truncateText input maxChars ≠ "" := by
  have hlen : 0 < input.length := by
    cases input with
    | mk data =>
      cases data with
      | nil => exact absurd rfl hi
      | cons c cs => simp [String.length]
  have hne : ∀ t : String, 0 < t.length → t ≠ "" := by
    intro t ht he
    rw [he] at ht
    simp [String.length] at ht
  unfold truncateText
  split
  · exact hi
  · split
    · apply hne
      rw [jsSlice_length]
      omega
    · apply hne
      rw [String.length_append, jsSlice_length]
      have : ("…" : String).length = 1 := rfl
      omega

/-- `processEvents` over a concatenation. -/
theorem processEvents_append (p : ProjParams) (a b : List AcpRuntimeEvent)
    (s : ProjectorState) :
    processEvents p (a ++ b) s
      = ((processEvents p b (processEvents p a s).1).1,
          (processEvents p a s).2 ++ (processEvents p b (processEvents p a s).1).2) := by
  induction a generalizing s with
  | nil => simp [processEvents]
  | cons e rest ih =>
    simp only [List.cons_append, processEvents]
    simp only [List.append_eq]
    rw [ih]
    simp [List.append_assoc]

/-- `flush` conserves the number of pending-or-delivered notices. -/
theorem flush_notice_conserve (p : ProjParams) (force : Bool) (s : ProjectorState) :
    noticeCount (flush p force s).2 + pendNoticeCount (flush p force s).1
      = pendNoticeCount s := by
  unfold flush
  split <;> split <;>
    simp [noticeCount, pendNoticeCount, List.countP_map, Function.comp_def]

/-- `consumeMetaQuota` keeps the buffered deliveries and the latch. -/
theorem consumeMetaQuota_frame (p : ProjParams) (force : Bool) (s : ProjectorState) :
    (consumeMetaQuota p force s).2.pendingToolDeliveries = s.pendingToolDeliveries ∧
    (consumeMetaQuota p force s).2.truncationNoticeEmitted = s.truncationNoticeEmitted := by
  rcases consumeMetaQuota_state p force s with h | h <;> rw [h] <;> exact ⟨rfl, rfl⟩

/-- A status emission whose meta is not the session-info notice neither
adds nor removes a notice. -/
theorem emitSystemStatus_notice_free (p : ProjParams) (text : String)
    (meta : Option AcpProjectedDeliveryMeta) (force dedupe : Bool) (s : ProjectorState)
    (hm : isNoticeMeta meta = false) :
    noticeCount (emitSystemStatus p text meta force dedupe s).2
      + pendNoticeCount (emitSystemStatus p text meta force dedupe s).1
      = pendNoticeCount s := by
  rcases hmatch : consumeMetaQuota p force s with ⟨ok, s1⟩
  obtain ⟨q1, q2⟩ := consumeMetaQuota_frame p force s
  rw [hmatch] at q1 q2
  dsimp only at q1 q2
  have hcons := flush_notice_conserve p true s1
  unfold emitSystemStatus
  rw [hmatch]
  split
  · simp [noticeCount]
  · try dsimp only
    split
    · simp [noticeCount]
    · try dsimp only
      split
      · simp [noticeCount]
      · cases ok
        · try dsimp only
          simp [noticeCount, pendNoticeCount, q1]
        · try dsimp only
          split
          · simp only [noticeCount, pendNoticeCount] at hcons ⊢
            simp [List.countP_append, List.countP_cons, isNoticeDelivery, hm, q1]
          · have hps : pendNoticeCount s1 = pendNoticeCount s := by
              unfold pendNoticeCount
              rw [q1]
            simp only [noticeCount, pendNoticeCount, List.countP_append, List.countP_cons,
              List.countP_nil] at hcons hps ⊢
            simp [isNoticeDelivery, hm] at hcons hps ⊢
            omega

/-- The truncation notice adds exactly one notice when the latch was not
yet set, and nothing otherwise. -/
theorem emitTruncationNotice_notice (p : ProjParams) (s : ProjectorState)
    (hsend : p.shouldSendToolSummaries = true)
    (hstat : 1 ≤ p.settings.maxStatusChars) :
    noticeCount (emitTruncationNotice p s).2 + pendNoticeCount (emitTruncationNotice p s).1
      = pendNoticeCount s + (if s.truncationNoticeEmitted = true then 0 else 1) := by
  unfold emitTruncationNotice
  split
  · rename_i h
    simp [noticeCount, h]
  · rename_i h
    have hbound : truncateText (jsTrim "output truncated") p.settings.maxStatusChars ≠ "" :=
      truncateText_ne_empty _ _ (by decide) hstat
    have hcons := flush_notice_conserve p true { s with truncationNoticeEmitted := true }
    unfold emitSystemStatus
    rw [if_neg (by simp [hsend]), if_neg hbound]
    try dsimp only
    rw [if_neg (by simp)]
    have hq : consumeMetaQuota p true { s with truncationNoticeEmitted := true }
        = (true, { s with truncationNoticeEmitted := true }) := rfl
    rw [hq]
    try dsimp only
    split
    · simp only [noticeCount, pendNoticeCount]
      simp [List.countP_append, List.countP_cons, isNoticeDelivery, isNoticeMeta]
    · simp only [noticeCount, pendNoticeCount] at hcons ⊢
      simp only [List.countP_append, List.countP_cons, isNoticeDelivery, isNoticeMeta] at hcons ⊢
      simp at hcons ⊢
      omega

/-- In live mode `flush` keeps the buffered tool deliveries. -/
theorem flush_pending_live (p : ProjParams) (force : Bool) (s : ProjectorState)
    (hmode : p.settings.deliveryMode = .live) :
    (flush p force s).1.pendingToolDeliveries = s.pendingToolDeliveries := by
  unfold flush
  rw [hmode]
  simp

/-- In final-only mode a forced `flush` drains the buffer. -/
theorem flush_final_pending (p : ProjParams) (s : ProjectorState)
    (hmode : p.settings.deliveryMode = .final_only) :
    (flush p true s).1.pendingToolDeliveries = [] := by
  unfold flush
  rw [hmode]
  simp

/-- In live mode a status emission never buffers a delivery. -/
theorem emitSystemStatus_pending_live (p : ProjParams) (text : String)
    (meta : Option AcpProjectedDeliveryMeta) (force dedupe : Bool) (s : ProjectorState)
    (hmode : p.settings.deliveryMode = .live) :
    (emitSystemStatus p text meta force dedupe s).1.pendingToolDeliveries
      = s.pendingToolDeliveries := by
  rcases hmatch : consumeMetaQuota p force s with ⟨ok, s1⟩
  have q1 := (consumeMetaQuota_frame p force s).1
  rw [hmatch] at q1
  dsimp only at q1
  unfold emitSystemStatus
  rw [hmatch]
  split
  · rfl
  · try dsimp only
    split
    · rfl
    · try dsimp only
      split
      · rfl
      · cases ok
        · exact q1
        · try dsimp only
          rw [hmode]
          rw [if_neg (by decide)]
          try dsimp only
          rw [flush_pending_live p true s1 hmode]
          exact q1

/-- In live mode the truncation notice never buffers a delivery. -/
theorem emitTruncationNotice_pending_live (p : ProjParams) (s : ProjectorState)
    (hmode : p.settings.deliveryMode = .live) :
    (emitTruncationNotice p s).1.pendingToolDeliveries = s.pendingToolDeliveries := by
  unfold emitTruncationNotice
  split
  · rfl
  · exact emitSystemStatus_pending_live p _ _ true false _ hmode

/-- Accepting visible text neither delivers nor buffers a notice. -/
theorem acceptVisibleText_notice (p : ProjParams) (a : String) (v : ProjectorState) :
    noticeCount (acceptVisibleText p a v).2 + pendNoticeCount (acceptVisibleText p a v).1
      = pendNoticeCount v := by
  unfold acceptVisibleText
  split
  · try dsimp only
    split
    · split <;> simp [noticeCount, pendNoticeCount, isNoticeDelivery]
    · simp [noticeCount, pendNoticeCount, isNoticeDelivery]
  · simp [noticeCount]

/-- A tool summary for a tag other than the session-info tag neither adds
nor removes a notice. -/
theorem emitToolSummary_notice_free (p : ProjParams)
    (tag toolCallId title status0 textOpt : Option String) (force : Bool)
    (s : ProjectorState) (htag : tag ≠ some "session_info_update") :
    noticeCount (emitToolSummary p tag toolCallId title status0 textOpt force s).2
      + pendNoticeCount (emitToolSummary p tag toolCallId title status0 textOpt force s).1
      = pendNoticeCount s := by
  unfold emitToolSummary
  split
  · simp [noticeCount]
  · split
    · simp [noticeCount]
    · try dsimp only
      split
      · simp [noticeCount]
      · rename_i s1 heq
        obtain ⟨lc, rfl⟩ := toolSuppressionGate_some _ _ _ _ _ _ _ heq
        split
        · rename_i s2 heq2
          have hq := consumeMetaQuota_state p force { s with toolLifecycleById := lc }
          rw [heq2] at hq
          dsimp only at hq
          rcases hq with hq | hq <;> subst hq <;> simp [noticeCount, pendNoticeCount]
        · rename_i s2 heq2
          have hq := (consumeMetaQuota_frame p force { s with toolLifecycleById := lc }).1
          rw [heq2] at hq
          dsimp only at hq
          have hcons := flush_notice_conserve p true s2
          split
          · simp only [noticeCount, pendNoticeCount, List.countP_append, List.countP_cons,
              List.countP_nil] at hcons ⊢
            cases tag with
            | none => simp [isNoticeDelivery, isNoticeMeta, hq]
            | some t =>
              have hne : t ≠ "session_info_update" := fun he => htag (by rw [he])
              by_cases ht : t = ""
              · simp [isNoticeDelivery, isNoticeMeta, ht, hq]
              · simp [isNoticeDelivery, isNoticeMeta, ht, hne, hq]
          · try dsimp only
            simp only [noticeCount, pendNoticeCount, List.countP_append, List.countP_cons,
              List.countP_nil] at hcons ⊢
            cases tag with
            | none =>
              simp [isNoticeDelivery, isNoticeMeta, hq] at hcons ⊢
              omega
            | some t =>
              have hne : t ≠ "session_info_update" := fun he => htag (by rw [he])
              by_cases ht : t = ""
              · simp [isNoticeDelivery, isNoticeMeta, ht, hq] at hcons ⊢
                omega
              · simp [isNoticeDelivery, isNoticeMeta, ht, hne, hq] at hcons ⊢
                omega

/-- The budget step delivers exactly one extra notice when it truncates
with the latch clear, and it leaves the latch set exactly when it was set
or the step truncated. -/
theorem textBudgetStep_notice (p : ProjParams) (text : String) (s1 : ProjectorState)
    (hsend : p.shouldSendToolSummaries = true)
    (hstat : 1 ≤ p.settings.maxStatusChars) :
    noticeCount (textBudgetStep p text s1).2 + pendNoticeCount (textBudgetStep p text s1).1
      = pendNoticeCount s1
        + (if truncHereB p s1 text && !s1.truncationNoticeEmitted then 1 else 0) ∧
    (textBudgetStep p text s1).1.truncationNoticeEmitted
      = (s1.truncationNoticeEmitted || truncHereB p s1 text) := by
  unfold textBudgetStep truncHereB
  split
  · rename_i h
    constructor
    · rw [emitTruncationNotice_notice p s1 hsend hstat, decide_eq_true h]
      cases hl : s1.truncationNoticeEmitted <;> simp [hl]
    · rw [emitTruncationNotice_latch, decide_eq_true h]
      simp
  · rename_i h
    try dsimp only
    by_cases hlen : p.settings.maxTurnChars - s1.emittedTurnChars < text.length
    · rw [if_pos hlen]
      rw [if_pos (by rw [jsSlice_length]; omega)]
      try dsimp only
      have ha := acceptVisibleText_notice p
        (jsSlice text (p.settings.maxTurnChars - s1.emittedTurnChars)) s1
      have hal := (acceptVisibleText_spec p
        (jsSlice text (p.settings.maxTurnChars - s1.emittedTurnChars)) s1).2.2.1
      have he := emitTruncationNotice_notice p
        (acceptVisibleText p (jsSlice text (p.settings.maxTurnChars - s1.emittedTurnChars)) s1).1
        hsend hstat
      rw [hal] at he
      constructor
      · simp only [noticeCount, List.countP_append] at ha he ⊢
        rw [decide_eq_false h, decide_eq_true hlen]
        cases hl : s1.truncationNoticeEmitted <;> simp [hl] at he ⊢ <;> omega
      · rw [emitTruncationNotice_latch, decide_eq_false h, decide_eq_true hlen]
        simp
    · rw [if_neg hlen]
      rw [if_neg (by omega)]
      constructor
      · rw [decide_eq_false h, decide_eq_false hlen]
        simp [acceptVisibleText_notice]
      · rw [(acceptVisibleText_spec p text s1).2.2.1,
          decide_eq_false h, decide_eq_false hlen]
        simp

/-- In live mode a tool summary never buffers a delivery. -/
theorem emitToolSummary_pending_live (p : ProjParams)
    (tag toolCallId title status0 textOpt : Option String) (force : Bool)
    (s : ProjectorState) (hmode : p.settings.deliveryMode = .live) :
    (emitToolSummary p tag toolCallId title status0 textOpt force s).1.pendingToolDeliveries
      = s.pendingToolDeliveries := by
  unfold emitToolSummary
  split
  · rfl
  · split
    · rfl
    · try dsimp only
      split
      · rfl
      · rename_i s1 heq
        obtain ⟨lc, rfl⟩ := toolSuppressionGate_some _ _ _ _ _ _ _ heq
        split
        · rename_i s2 heq2
          have hq := (consumeMetaQuota_frame p force { s with toolLifecycleById := lc }).1
          rw [heq2] at hq
          dsimp only at hq
          exact hq
        · rename_i s2 heq2
          have hq := (consumeMetaQuota_frame p force { s with toolLifecycleById := lc }).1
          rw [heq2] at hq
          dsimp only at hq
          rw [hmode]
          rw [if_neg (by decide)]
          try dsimp only
          rw [flush_pending_live p true s2 hmode]
          exact hq

/-- In live mode the budget step never buffers a delivery. -/
theorem textBudgetStep_pending_live (p : ProjParams) (t : String) (u : ProjectorState)
    (hmode : p.settings.deliveryMode = .live) :
    (textBudgetStep p t u).1.pendingToolDeliveries = u.pendingToolDeliveries := by
  unfold textBudgetStep
  split
  · exact emitTruncationNotice_pending_live p u hmode
  · rename_i h
    try dsimp only
    split
    · rename_i hlen
      rw [if_pos (by rw [jsSlice_length]; omega)]
      try dsimp only
      rw [emitTruncationNotice_pending_live p _ hmode]
      exact (acceptVisibleText_spec p _ u).2.2.2.2.2.2.2.2.1
    · rw [if_neg (lt_irrefl t.length)]
      exact (acceptVisibleText_spec p _ u).2.2.2.2.2.2.2.2.1

/-- In live mode a non-terminal event never buffers a delivery. -/
theorem onEvent_pending_live (p : ProjParams) (e : AcpRuntimeEvent) (s : ProjectorState)
    (hmode : p.settings.deliveryMode = .live) (hnt : isTerminalEvent e = false) :
    (onEvent p e s).1.pendingToolDeliveries = s.pendingToolDeliveries := by
  cases e with
  | text_delta stream tag text0 =>
    simp only [onEvent]
    split
    · rfl
    · split
      · rfl
      · split
        · rfl
        · try dsimp only
          exact textBudgetStep_pending_live p _ _ hmode
  | status tag text used size =>
    simp only [onEvent]
    split
    · rfl
    · split
      · rfl
      · rename_i s1 heq
        obtain ⟨u, rfl⟩ := statusUsageGate_some _ _ _ _ _ _ _ heq
        exact emitSystemStatus_pending_live p _ _ false true _ hmode
  | tool_call tag toolCallId title status0 textOpt =>
    simp only [onEvent]
    split
    · split
      · split <;> rfl
      · rfl
    · exact emitToolSummary_pending_live p _ _ _ _ _ false s hmode
  | done => simp [isTerminalEvent] at hnt
  | error => simp [isTerminalEvent] at hnt

/-- In live mode processing non-terminal events never buffers a
delivery. -/
theorem processEvents_pending_live (p : ProjParams) (evs : List AcpRuntimeEvent) :
    ∀ s : ProjectorState, p.settings.deliveryMode = .live →
      (∀ e ∈ evs, isTerminalEvent e = false) →
      (processEvents p evs s).1.pendingToolDeliveries = s.pendingToolDeliveries := by
  induction evs with
  | nil =>
    intro s hmode hnt
    rfl
  | cons e rest ih =>
    intro s hmode hnt
    simp only [processEvents]
    rw [ih _ hmode (fun x hx => hnt x (List.mem_cons_of_mem e hx))]
    exact onEvent_pending_live p e s hmode (hnt e (List.mem_cons_self e rest))

/-- Arithmetic of chaining two truncation-delta accounting steps. -/
theorem if_and_or_arith (tb lat an : Bool) (n1 n2 pe p1 p2 : Nat)
    (h1 : n1 + p1 = pe + (if (tb && !lat) = true then 1 else 0))
    (h2 : n2 + p2 = p1 + (if (an && !(lat || tb)) = true then 1 else 0)) :
    n1 + n2 + p2 = pe + (if ((tb || an) && !lat) = true then 1 else 0) := by
  cases tb <;> cases lat <;> cases an <;> simp at h1 h2 ⊢ <;> omega

/-- A non-terminal event delivers exactly one extra notice when it
truncates visible text with the latch clear, and leaves the latch set
exactly when it was set or the step truncated. -/
theorem onEvent_notice (p : ProjParams) (e : AcpRuntimeEvent) (s : ProjectorState)
    (hsend : p.shouldSendToolSummaries = true)
    (hstat : 1 ≤ p.settings.maxStatusChars)
    (hvis : isAcpTagVisible p.settings (some "session_info_update") = false)
    (hnt : isTerminalEvent e = false) :
    noticeCount (onEvent p e s).2 + pendNoticeCount (onEvent p e s).1
      = pendNoticeCount s
        + (if truncStepB p s e && !s.truncationNoticeEmitted then 1 else 0) ∧
    (onEvent p e s).1.truncationNoticeEmitted
      = (s.truncationNoticeEmitted || truncStepB p s e) := by
  cases e with
  | text_delta stream tag text0 =>
    clear hnt
    cases hg1 : (match stream with
        | some str => str != "" && str != "output"
        | none => false) with
    | true =>
      simp only [onEvent, truncStepB]
      simp only [hg1]
      simp [noticeCount]
    | false =>
      cases hv : isAcpTagVisible p.settings tag with
      | false =>
        simp only [onEvent, truncStepB]
        simp only [hg1, hv]
        simp [noticeCount]
      | true =>
        by_cases h0 : text0 = ""
        · subst h0
          simp only [onEvent, truncStepB]
          simp only [hg1, hv]
          simp [noticeCount]
        · simp only [onEvent, truncStepB]
          simp only [hg1, hv]
          simp only [Bool.not_false, Bool.true_and, decide_eq_false h0, Bool.not_true,
            Bool.false_eq_true, if_false, if_neg h0, Bool.not_eq_true]
          refine ⟨?_, ?_⟩
          · rw [(textBudgetStep_notice p _ _ hsend hstat).1]
            rfl
          · rw [(textBudgetStep_notice p _ _ hsend hstat).2]
            rfl
  | status tag text used size =>
    have ht : truncStepB p s (.status tag text used size) = false := rfl
    rw [ht]
    simp only [Bool.false_and, Bool.or_false]
    simp only [onEvent]
    split
    · exact ⟨by simp [noticeCount, pendNoticeCount], rfl⟩
    · rename_i hvt
      split
      · exact ⟨by simp [noticeCount, pendNoticeCount], rfl⟩
      · rename_i s1 heq
        obtain ⟨u, rfl⟩ := statusUsageGate_some _ _ _ _ _ _ _ heq
        have hv : isAcpTagVisible p.settings tag = true := by
          revert hvt
          cases isAcpTagVisible p.settings tag <;> simp
        have hm : isNoticeMeta (statusMetaOfTag tag) = false := by
          cases tag with
          | none => rfl
          | some t =>
            by_cases ht0 : t = ""
            · simp [statusMetaOfTag, isNoticeMeta, ht0]
            · by_cases hsi : t = "session_info_update"
              · subst hsi
                rw [hvis] at hv
                exact Bool.noConfusion hv
              · simp [statusMetaOfTag, isNoticeMeta, ht0, hsi]
        have hfree := emitSystemStatus_notice_free p text (statusMetaOfTag tag) false true
          { s with lastUsageTuple := u } hm
        have hlatch := (emitSystemStatus_spec p text (statusMetaOfTag tag) false true
          { s with lastUsageTuple := u }).2.1
        exact ⟨by rw [hfree]; simp [pendNoticeCount], by rw [hlatch]⟩
  | tool_call tag toolCallId title status0 textOpt =>
    have ht : truncStepB p s (.tool_call tag toolCallId title status0 textOpt) = false := rfl
    rw [ht]
    simp only [Bool.false_and, Bool.or_false]
    simp only [onEvent]
    split
    · split
      · split
        · exact ⟨by simp [noticeCount, pendNoticeCount], rfl⟩
        · exact ⟨by simp [noticeCount, pendNoticeCount], rfl⟩
      · exact ⟨by simp [noticeCount, pendNoticeCount], rfl⟩
    · rename_i hvt
      have hv : isAcpTagVisible p.settings tag = true := by
        revert hvt
        cases isAcpTagVisible p.settings tag <;> simp
      have htag : tag ≠ some "session_info_update" := by
        intro he
        rw [he, hvis] at hv
        exact Bool.noConfusion hv
      have hfree := emitToolSummary_notice_free p tag toolCallId title status0 textOpt false s htag
      have hlatch := (emitToolSummary_spec p tag toolCallId title status0 textOpt false s).2.1
      exact ⟨by rw [hfree]; simp [pendNoticeCount], by rw [hlatch]⟩
  | done => simp [isTerminalEvent] at hnt
  | error => simp [isTerminalEvent] at hnt

/-- Over non-terminal events, pending-or-delivered notices grow by
exactly one when some step truncated with the latch initially clear, and
the latch records whether any step truncated. -/
theorem processEvents_notice (p : ProjParams) (evs : List AcpRuntimeEvent)
    (hsend : p.shouldSendToolSummaries = true)
    (hstat : 1 ≤ p.settings.maxStatusChars)
    (hvis : isAcpTagVisible p.settings (some "session_info_update") = false) :
    ∀ s : ProjectorState, (∀ e ∈ evs, isTerminalEvent e = false) →
      noticeCount (processEvents p evs s).2 + pendNoticeCount (processEvents p evs s).1
        = pendNoticeCount s
          + (if anyTruncStep p s evs && !s.truncationNoticeEmitted then 1 else 0) ∧
      (processEvents p evs s).1.truncationNoticeEmitted
        = (s.truncationNoticeEmitted || anyTruncStep p s evs) := by
  induction evs with
  | nil =>
    intro s hnt
    simp [processEvents, anyTruncStep, noticeCount]
  | cons e rest ih =>
    intro s hnt
    obtain ⟨h1, h1l⟩ := onEvent_notice p e s hsend hstat hvis (hnt e (List.mem_cons_self e rest))
    obtain ⟨h2, h2l⟩ := ih (onEvent p e s).1 (fun x hx => hnt x (List.mem_cons_of_mem e hx))
    simp only [processEvents, anyTruncStep]
    constructor
    · simp only [noticeCount, List.countP_append] at h1 h2 ⊢
      rw [h1l] at h2
      exact if_and_or_arith _ _ _ _ _ _ _ _ h1 h2
    · rw [h2l, h1l]
      exact Bool.or_assoc _ _ _

/-- Claim C3, corrected: the original claim fails when tool summaries are
disabled — truncation occurs but no notice is delivered. -/
theorem claimC3_counterexample :
    anyTruncStep noSummaryParams initState
        [AcpRuntimeEvent.text_delta none none "0123456789"] = true ∧
    noticeCount (processEvents noSummaryParams
        ([AcpRuntimeEvent.text_delta none none "0123456789"] ++ [AcpRuntimeEvent.done])
        initState).2 = 0 := by
  decide

/-- Claim C3, amended: with tool summaries enabled, a positive status
budget and the session-info tag invisible, a turn of non-terminal events
followed by done delivers exactly one "output truncated" notice iff some
step truncated visible text; the notice call is always forced, never
deduplicated, tagged as a session-info event, and latched so it fires at
most once per turn. -/
theorem claimC3 (p : ProjParams) (evs : List AcpRuntimeEvent) (s : ProjectorState)
    (hsend : p.shouldSendToolSummaries = true)
    (hstat : 1 ≤ p.settings.maxStatusChars)
    (hvis : isAcpTagVisible p.settings (some "session_info_update") = false)
    (hnt : evs.all (fun e => !isTerminalEvent e) = true) :
    noticeCount (processEvents p (evs ++ [AcpRuntimeEvent.done]) initState).2
      = (if anyTruncStep p initState evs then 1 else 0) ∧
    (s.truncationNoticeEmitted = false →
      emitTruncationNotice p s
        = emitSystemStatus p "output truncated"
            (some { tag := some "session_info_update", toolCallId := none,
                    toolStatus := none, allowEdit := false }) true false
            { s with truncationNoticeEmitted := true }) ∧
    (s.truncationNoticeEmitted = true → emitTruncationNotice p s = (s, [])) := by
  have hnt2 : ∀ e ∈ evs, isTerminalEvent e = false := by
    intro e he
    have hb := List.all_eq_true.mp hnt e he
    simpa using hb
  refine ⟨?_, ?_, ?_⟩
  · obtain ⟨hmain, hlat⟩ := processEvents_notice p evs hsend hstat hvis initState hnt2
    have hflush := flush_notice_conserve p true (processEvents p evs initState).1
    have h1 : pendNoticeCount (flush p true (processEvents p evs initState).1).1 = 0 := by
      cases hmode : p.settings.deliveryMode with
      | live =>
        have hpend := processEvents_pending_live p evs initState hmode hnt2
        unfold pendNoticeCount
        rw [flush_pending_live p true _ hmode, hpend]
        rfl
      | final_only =>
        unfold pendNoticeCount
        rw [flush_final_pending p _ hmode]
        rfl
    rw [processEvents_append]
    dsimp only
    have hdone : (processEvents p [AcpRuntimeEvent.done]
        (processEvents p evs initState).1).2
        = (flush p true (processEvents p evs initState).1).2 ++ [] := rfl
    rw [hdone]
    simp only [List.append_nil]
    have hinit1 : pendNoticeCount initState = 0 := rfl
    have hinit2 : initState.truncationNoticeEmitted = false := rfl
    rw [hinit1, hinit2] at hmain
    simp only [noticeCount, List.countP_append] at hmain hflush ⊢
    cases hA : anyTruncStep p initState evs
    · rw [hA] at hmain
      simp only [Bool.false_and, Bool.false_eq_true, if_false, Nat.add_zero] at hmain ⊢
      omega
    · rw [hA] at hmain
      simp only [Bool.true_and, Bool.not_false, if_pos rfl] at hmain ⊢
      omega
  · intro hf
    unfold emitTruncationNotice
    rw [hf]
    simp
  · intro htr
    unfold emitTruncationNotice
    rw [htr]
    simp

/-- Witness for claim C3 (amended) at concrete parameters and a
one-fragment turn. -/
theorem claimC3_witness :
    sampleLiveParams.shouldSendToolSummaries = true ∧
    1 ≤ sampleLiveParams.settings.maxStatusChars ∧
    isAcpTagVisible sampleLiveParams.settings (some "session_info_update") = false ∧
    [AcpRuntimeEvent.text_delta none none "x"].all (fun e => !isTerminalEvent e) = true ∧
    (noticeCount (processEvents sampleLiveParams
        ([AcpRuntimeEvent.text_delta none none "x"] ++ [AcpRuntimeEvent.done]) initState).2
      = (if anyTruncStep sampleLiveParams initState
            [AcpRuntimeEvent.text_delta none none "x"] then 1 else 0) ∧
     (initState.truncationNoticeEmitted = false →
       emitTruncationNotice sampleLiveParams initState
         = emitSystemStatus sampleLiveParams "output truncated"
             (some { tag := some "session_info_update", toolCallId := none,
                     toolStatus := none, allowEdit := false }) true false
             { initState with truncationNoticeEmitted := true }) ∧
     (initState.truncationNoticeEmitted = true →
       emitTruncationNotice sampleLiveParams initState = (initState, []))) :=
  ⟨by decide, by decide, by decide, by decide,
    claimC3 sampleLiveParams [AcpRuntimeEvent.text_delta none none "x"] initState
      (by decide) (by decide) (by decide) (by decide)⟩

end AcpProjector
